import Mathlib

/-!
# goX: contact form mailer

A shallow embedding of the two deployment shapes of the contact form mailer,
`src/main.go` (HTTP server) and `src/netlify/functions/contact/main.go`
(serverless handler), together with the fragments of the Go standard library
they call (`strings`, `html/template`, `encoding/json`, `net/http`).

Go strings are modelled as lists of characters, that is as well-formed UTF-8
text.  Calls to `log.Printf` are not modelled.  The SMTP relay is a parameter
`T : Transport`; every entry into `sendEmail` and every call of
`smtp.SendMail` is recorded in the `World`, so that "`sendEmail` is not
invoked" reads "the world is unchanged".  The global `config` is a parameter
of the functions that read it.
-/

set_option linter.dupNamespace false

namespace GoX

/-- Go string, as the list of its characters -/
abbrev Str := List Char

instance : Coe String Str := ⟨String.toList⟩

/-! ## Package `strings` -/

/-- Go `strings.Index(s, sep)` for a one-character separator: the position
of the first occurrence, `none` for Go's `-1` -/
def Index (s : Str) (sep : Char) : Option Nat :=
  match s with
  | [] => none
  | x :: xs => if x = sep then some 0 else (Index xs sep).map (· + 1)

/-- Go `strings.Count(s, sep)` for a one-character separator -/
def Count (s : Str) (sep : Char) : Nat :=
  match s with
  | [] => 0
  | x :: xs => if x = sep then Count xs sep + 1 else Count xs sep

/-- Loop of Go `strings.genSplit`: at most `n` times cut `s` at the next
separator (`a[i] = s[:m]; s = s[m+len(sep):]`), then keep the remainder
(`a[i] = s`) -/
def genSplitLoop (sep : Char) : Nat → Str → List Str
  | 0, s => [s]
  | n + 1, s =>
    match Index s sep with
    | none => [s]
    | some m => s.take m :: genSplitLoop sep n (s.drop (m + 1))

/-- Go `strings.Split(s, sep)` for a one-character separator, as called by
`sendEmail` with `","`: `genSplit(s, sep, 0, -1)`, where the slice has
`Count(s, sep) + 1` slots and the loop runs `Count(s, sep)` times -/
def Split (s : Str) (sep : Char) : List Str :=
  genSplitLoop sep (Count s sep) s

/-- Go `strings.Join(elems, sep)` -/
def Join (elems : List Str) (sep : Str) : Str :=
  match elems with
  | [] => []
  | [e] => e
  | e :: rest => rest.foldl (fun b s => b ++ sep ++ s) e

/-! ## Package `html/template` -/

/-- Go `htmlReplacementTable` of `html/template`: the replacement of a
character, `none` where the table has no (or an empty) entry -/
def htmlReplacementTable (c : Char) : Option Str :=
  if c = Char.ofNat 0 then some "\uFFFD"
  else if c = '"' then some "&#34;"
  else if c = '&' then some "&amp;"
  else if c = Char.ofNat 39 then some "&#39;"
  else if c = '+' then some "&#43;"
  else if c = '<' then some "&lt;"
  else if c = '>' then some "&gt;"
  else none

/-- Go `htmlReplacer(s, htmlReplacementTable, true)`: every character with a
table entry is replaced, every other character is copied -/
def htmlReplacer : Str → Str
  | [] => []
  | c :: cs =>
    (match htmlReplacementTable c with
     | some repl => repl
     | none => [c]) ++ htmlReplacer cs

/-- Go `htmlEscaper` (`_html_template_htmlescaper`) applied to a value of
type `string`, the escaper `html/template` inserts for an action in element
content -/
def htmlEscaper (s : Str) : Str := htmlReplacer s

/-- Parsed template: literal text and field actions `{{.Field}}` -/
inductive Node where
  | text (s : Str)
  | field (name : Str)
  deriving DecidableEq, Repr

/-- Lexer of `text/template` in text state: the text before the next left
delimiter `{{` and what follows the delimiter, if there is one -/
def lexText : Str → Str × Option Str
  | [] => ([], none)
  | '\x7b' :: '\x7b' :: rest => ([], some rest)
  | c :: cs => (c :: (lexText cs).1, (lexText cs).2)

/-- Space characters inside an action -/
def isActionSpace (c : Char) : Bool :=
  c = ' ' || c = '\t' || c = '\r' || c = '\n'

/-- Go `isAlphaNumeric` of the template lexer, on ASCII -/
def isAlphaNumeric (c : Char) : Bool :=
  c = '_' || c.isAlpha || c.isDigit

/-- Lexer of `text/template` inside an action, for the one form of action in
the program's template: a field reference `.Field` closed by `}}` -/
def lexField (s : Str) : Option (Str × Str) :=
  match s.dropWhile isActionSpace with
  | '.' :: rest =>
    let name := rest.takeWhile isAlphaNumeric
    match (rest.dropWhile isAlphaNumeric).dropWhile isActionSpace with
    | '\x7d' :: '\x7d' :: rest2 => if name = [] then none else some (name, rest2)
    | _ => none
  | _ => none

/-- Text node for a non-empty run of text, as the lexer emits it -/
def textNode (t : Str) : List Node :=
  if t = [] then [] else [Node.text t]

/-- Parse loop: alternate text and actions until the input ends -/
def parseNodes : Nat → Str → Except Str (List Node)
  | 0, _ => .error "template: unexpected end"
  | n + 1, s =>
    match lexText s with
    | (t, none) => .ok (textNode t)
    | (t, some rest) =>
      match lexField rest with
      | none => .error "template: unexpected action"
      | some (name, rest2) =>
        match parseNodes n rest2 with
        | .error e => .error e
        | .ok ns => .ok (textNode t ++ Node.field name :: ns)

/-- Go `template.New("email").Parse(text)`, for templates made of text and
field actions.  In element content `html/template` leaves the literal text
as it is and pipes each action through `htmlEscaper` -/
def Parse (text : Str) : Except Str (List Node) :=
  parseNodes (text.length + 1) text

/-! ## The program: configuration and submission -/

/-- Go `Config`: SMTP settings read from the environment -/
structure Config where
  SMTPUser : Str
  SMTPPass : Str
  AdminEmail : Str
  CCEmails : Str
  deriving DecidableEq, Repr

/-- Go `Message`: the submitted form -/
structure Message where
  Name : Str
  Email : Str
  Message : Str
  deriving DecidableEq, Repr

def smtpServer : Str := "smtp.gmail.com"
def smtpPort : Str := "587"
def emailSubject : Str := "Contact Form Submission"

/-- Go `os.Getenv(key)` on an environment given by its entries: the value of
the variable, the empty string when it is not set -/
def Getenv (env : List (Str × Str)) (key : Str) : Str :=
  match env.find? (fun kv => kv.1 = key) with
  | some kv => kv.2
  | none => []

/-- Go `initConfig()` of the HTTP server and `loadConfig()` of the serverless
handler: the global `config` read from the environment -/
def initConfig (env : List (Str × Str)) : Config :=
  { SMTPUser := Getenv env "SMTP_USER",
    SMTPPass := Getenv env "SMTP_PASS",
    AdminEmail := Getenv env "ADMIN_EMAIL",
    CCEmails := Getenv env "CC_EMAILS" }

/-- Tails of the character references the escaper writes after `&` -/
def entityTails : List Str :=
  ["amp;", "lt;", "gt;", "#34;", "#39;", "#43;"]

/-- Field lookup of `text/template` on a `Message` value -/
def evalField (msg : Message) (name : Str) : Except Str Str :=
  if name = "Name" then .ok msg.Name
  else if name = "Email" then .ok msg.Email
  else if name = "Message" then .ok msg.Message
  else .error ("template: can't evaluate field " ++ name)

/-- Go `t.Execute(&body, msg)`: write the text nodes as they are and each
field through the escaper -/
def Execute : List Node → Message → Except Str Str
  | [], _ => .ok []
  | Node.text s :: ns, msg =>
    match Execute ns msg with
    | .error e => .error e
    | .ok out => .ok (s ++ out)
  | Node.field name :: ns, msg =>
    match evalField msg name with
    | .error e => .error e
    | .ok v =>
      match Execute ns msg with
      | .error e => .error e
      | .ok out => .ok (htmlEscaper v ++ out)

/-- The template literal of `sendEmail` -/
def emailTemplate : Str := (
"
        <html>
        <head>
            <style>
                body \x7b font-family: Arial, sans-serif; margin: 0; padding: 0; background-color: #e9ecef; \x7d
                .container \x7b width: 100%; max-width: 600px; margin: 0 auto; background-color: #ffffff; border-radius: 8px; overflow: hidden; \x7d
                .header \x7b background-color: #007bff; color: #ffffff; padding: 20px; text-align: center; \x7d
                .content \x7b padding: 20px; \x7d
                .footer \x7b background-color: #f1f1f1; padding: 10px; text-align: center; color: #6c757d; \x7d
                h1 \x7b margin: 0; \x7d
                p \x7b margin: 0 0 10px; \x7d
                .highlight \x7b color: #007bff; \x7d
            </style>
        </head>
        <body>
            <div class=\"container\">
                <div class=\"header\">
                    <h1>Contact Form Submission</h1>
                </div>
                <div class=\"content\">
                    <p><strong class=\"highlight\">Name:</strong> \x7b\x7b.Name\x7d\x7d</p>
                    <p><strong class=\"highlight\">Email:</strong> \x7b\x7b.Email\x7d\x7d</p>
                    <p><strong class=\"highlight\">Message:</strong><br>\x7b\x7b.Message\x7d\x7d</p>
                </div>
                <div class=\"footer\">
                    <p>&copy; 2024 Your Company. All rights reserved.</p>
                </div>
            </div>
        </body>
        </html>
    " : String).toList

/-- Text of `emailTemplate` in front of the action `{{.Name}}` -/
def templateHead : Str := (
"
        <html>
        <head>
            <style>
                body \x7b font-family: Arial, sans-serif; margin: 0; padding: 0; background-color: #e9ecef; \x7d
                .container \x7b width: 100%; max-width: 600px; margin: 0 auto; background-color: #ffffff; border-radius: 8px; overflow: hidden; \x7d
                .header \x7b background-color: #007bff; color: #ffffff; padding: 20px; text-align: center; \x7d
                .content \x7b padding: 20px; \x7d
                .footer \x7b background-color: #f1f1f1; padding: 10px; text-align: center; color: #6c757d; \x7d
                h1 \x7b margin: 0; \x7d
                p \x7b margin: 0 0 10px; \x7d
                .highlight \x7b color: #007bff; \x7d
            </style>
        </head>
        <body>
            <div class=\"container\">
                <div class=\"header\">
                    <h1>Contact Form Submission</h1>
                </div>
                <div class=\"content\">
                    <p><strong class=\"highlight\">Name:</strong> " : String).toList

/-- Text of `emailTemplate` between the actions `{{.Name}}` and `{{.Email}}` -/
def templateAfterName : Str := (
"</p>
                    <p><strong class=\"highlight\">Email:</strong> " : String).toList

/-- Text of `emailTemplate` between the actions `{{.Email}}` and `{{.Message}}` -/
def templateAfterEmail : Str := (
"</p>
                    <p><strong class=\"highlight\">Message:</strong><br>" : String).toList

/-- Text of `emailTemplate` behind the action `{{.Message}}` -/
def templateTail : Str := (
"</p>
                </div>
                <div class=\"footer\">
                    <p>&copy; 2024 Your Company. All rights reserved.</p>
                </div>
            </div>
        </body>
        </html>
    " : String).toList

/-! ## Package `encoding/json`: decoding -/

/-- JSON value as the scanner of `encoding/json` delimits it -/
inductive JSON where
  | null
  | bool (b : Bool)
  | number (lit : Str)
  | string (s : Str)
  | array (elems : List JSON)
  | object (members : List (Str × JSON))

/-- Go `isSpace` of the JSON scanner -/
def isSpace (c : Char) : Bool :=
  c = ' ' || c = '\t' || c = '\r' || c = '\n'

/-- Skip the white space in front of a token -/
def skipSpace (s : Str) : Str := s.dropWhile isSpace

/-- Go `maxNestingDepth` of the JSON scanner -/
def maxNestingDepth : Nat := 10000

/-- Value of a hexadecimal digit -/
def hexVal (c : Char) : Option Nat :=
  if '0' ≤ c ∧ c ≤ '9' then some (c.toNat - 48)
  else if 'a' ≤ c ∧ c ≤ 'f' then some (c.toNat - 87)
  else if 'A' ≤ c ∧ c ≤ 'F' then some (c.toNat - 55)
  else none

/-- Go `getu4` on the four digits after `\u` -/
def getu4 (a b c d : Char) : Option Nat :=
  match hexVal a, hexVal b, hexVal c, hexVal d with
  | some x, some y, some z, some w => some (((x * 16 + y) * 16 + z) * 16 + w)
  | _, _, _, _ => none

/-- Scanner states `stateInString`, `stateInStringEsc`, `stateInStringEscU`:
the raw text of a string literal after its opening quote, and the rest of the
input after the closing quote -/
def scanString : Str → Option (Str × Str)
  | [] => none
  | '"' :: rest => some ([], rest)
  | '\\' :: 'u' :: a :: b :: c :: d :: rest =>
    match getu4 a b c d, scanString rest with
    | some _, some (raw, rest2) => some ('\\' :: 'u' :: a :: b :: c :: d :: raw, rest2)
    | _, _ => none
  | '\\' :: e :: rest =>
    if e = 'b' ∨ e = 'f' ∨ e = 'n' ∨ e = 'r' ∨ e = 't' ∨ e = '\\' ∨ e = '/' ∨ e = '"' then
      match scanString rest with
      | some (raw, rest2) => some ('\\' :: e :: raw, rest2)
      | none => none
    else none
  | c :: rest =>
    if c.toNat < 32 ∨ c = '\\' then none
    else
      match scanString rest with
      | some (raw, rest2) => some (c :: raw, rest2)
      | none => none

/-- Go `unicode.ReplacementChar` -/
def replacementChar : Char := Char.ofNat 0xFFFD

/-- Go `utf16.DecodeRune(r1, r2)` -/
def decodeSurrogates (r1 r2 : Nat) : Char :=
  if 0xD800 ≤ r1 ∧ r1 < 0xDC00 ∧ 0xDC00 ≤ r2 ∧ r2 < 0xE000 then
    Char.ofNat ((r1 - 0xD800) * 1024 + (r2 - 0xDC00) + 0x10000)
  else replacementChar

/-- Second half of a surrogate pair: `getu4` on the six characters `\uXXXX`
at the front of the input -/
def getu4At (s : Str) : Option Nat :=
  match s with
  | '\\' :: 'u' :: e :: f :: g :: h :: _ => getu4 e f g h
  | _ => none

/-- Go `unquote` on the raw text of a string literal the scanner accepted;
`skip` is the number of characters the read index has already passed -/
def unquoteFrom : Nat → Str → Str
  | _, [] => []
  | skip + 1, _ :: rest => unquoteFrom skip rest
  | 0, '\\' :: 'u' :: a :: b :: c :: d :: rest =>
    match getu4 a b c d with
    | none => replacementChar :: unquoteFrom 0 rest
    | some rr =>
      if 0xD800 ≤ rr ∧ rr < 0xE000 then
        match getu4At rest with
        | some rr1 =>
          if decodeSurrogates rr rr1 = replacementChar then replacementChar :: unquoteFrom 0 rest
          else decodeSurrogates rr rr1 :: unquoteFrom 6 rest
        | none => replacementChar :: unquoteFrom 0 rest
      else Char.ofNat rr :: unquoteFrom 0 rest
  | 0, '\\' :: e :: rest =>
    (if e = 'b' then Char.ofNat 8
     else if e = 'f' then Char.ofNat 12
     else if e = 'n' then '\n'
     else if e = 'r' then '\r'
     else if e = 't' then '\t'
     else e) :: unquoteFrom 0 rest
  | 0, c :: rest => c :: unquoteFrom 0 rest

/-- Go `unquote` -/
def unquote (raw : Str) : Str := unquoteFrom 0 raw

/-- Scanner states `state1`, `stateDot0`, `stateE0`: a run of digits -/
def scanDigits (s : Str) : Str × Str :=
  (s.takeWhile Char.isDigit, s.dropWhile Char.isDigit)

/-- Scanner states `stateE`, `stateESign`, `stateE0`: optional exponent -/
def scanExponent (s : Str) : Option (Str × Str) :=
  match s with
  | e :: rest =>
    if e = 'e' ∨ e = 'E' then
      match rest with
      | sg :: rest2 =>
        if sg = '+' ∨ sg = '-' then
          (match scanDigits rest2 with
           | ([], _) => none
           | (ds, rest3) => some (e :: sg :: ds, rest3))
        else
          (match scanDigits rest with
           | ([], _) => none
           | (ds, rest3) => some (e :: ds, rest3))
      | [] => none
    else some ([], s)
  | [] => some ([], s)

/-- Scanner states `stateDot`, `stateDot0`: optional fraction -/
def scanFraction (s : Str) : Option (Str × Str) :=
  match s with
  | '.' :: rest =>
    (match scanDigits rest with
     | ([], _) => none
     | (ds, rest2) => some ('.' :: ds, rest2))
  | _ => some ([], s)

/-- Scanner states `state0`, `state1`: the integer part after an optional sign -/
def scanInt (s : Str) : Option (Str × Str) :=
  match s with
  | '0' :: rest => some (['0'], rest)
  | c :: rest =>
    if '1' ≤ c ∧ c ≤ '9' then some (c :: (scanDigits rest).1, (scanDigits rest).2) else none
  | [] => none

/-- Number literal: `stateNeg`, integer part, fraction, exponent -/
def scanNumber (s : Str) : Option (Str × Str) :=
  let (sign, s1) := match s with
    | '-' :: rest => (['-'], rest)
    | _ => ([], s)
  match scanInt s1 with
  | none => none
  | some (i, s2) =>
    match scanFraction s2 with
    | none => none
    | some (f, s3) =>
      match scanExponent s3 with
      | none => none
      | some (e, s4) => some (sign ++ i ++ f ++ e, s4)

/-- A value that is no array and no object, at the front of the input: a
string, one of the literals `true`, `false`, `null`, or a number -/
def scanScalar (s : Str) : Option (JSON × Str) :=
  match s with
  | '"' :: rest =>
    match scanString rest with
    | some (raw, rest2) => some (JSON.string (unquote raw), rest2)
    | none => none
  | 't' :: 'r' :: 'u' :: 'e' :: rest => some (JSON.bool true, rest)
  | 'f' :: 'a' :: 'l' :: 's' :: 'e' :: rest => some (JSON.bool false, rest)
  | 'n' :: 'u' :: 'l' :: 'l' :: rest => some (JSON.null, rest)
  | c :: rest =>
    if c = '-' ∨ c.isDigit then
      match scanNumber (c :: rest) with
      | some (lit, rest2) => some (JSON.number lit, rest2)
      | none => none
    else none
  | [] => none

mutual
/-- Scan one JSON value (`stateBeginValue`), skipping the white space in
front of it; `depth` is the number of enclosing arrays and objects.  The
result is the value and the input that follows it -/
def scanValue : Nat → Nat → Str → Option (JSON × Str)
  | 0, _, _ => none
  | fuel + 1, depth, s =>
    match skipSpace s with
    | '\x7b' :: rest =>
      if depth + 1 > maxNestingDepth then none
      else
        match skipSpace rest with
        | '\x7d' :: rest2 => some (JSON.object [], rest2)
        | _ =>
          match scanMembers fuel (depth + 1) rest with
          | some (ms, rest2) => some (JSON.object ms, rest2)
          | none => none
    | '[' :: rest =>
      if depth + 1 > maxNestingDepth then none
      else
        match skipSpace rest with
        | ']' :: rest2 => some (JSON.array [], rest2)
        | _ =>
          match scanElements fuel (depth + 1) rest with
          | some (vs, rest2) => some (JSON.array vs, rest2)
          | none => none
    | t => scanScalar t
/-- Members of an object after `stateBeginStringOrEmpty` saw no closing
brace: key, colon, value, then a comma and more members or the closing brace -/
def scanMembers : Nat → Nat → Str → Option (List (Str × JSON) × Str)
  | 0, _, _ => none
  | fuel + 1, depth, s =>
    match skipSpace s with
    | '"' :: rest =>
      match scanString rest with
      | none => none
      | some (raw, rest2) =>
        match skipSpace rest2 with
        | ':' :: rest3 =>
          match scanValue fuel depth rest3 with
          | none => none
          | some (v, rest4) =>
            match skipSpace rest4 with
            | ',' :: rest5 =>
              (match scanMembers fuel depth rest5 with
               | some (ms, rest6) => some ((unquote raw, v) :: ms, rest6)
               | none => none)
            | '\x7d' :: rest5 => some ([(unquote raw, v)], rest5)
            | _ => none
        | _ => none
    | _ => none
/-- Elements of an array after `stateBeginValueOrEmpty` saw no closing
bracket: value, then a comma and more elements or the closing bracket -/
def scanElements : Nat → Nat → Str → Option (List JSON × Str)
  | 0, _, _ => none
  | fuel + 1, depth, s =>
    match scanValue fuel depth s with
    | none => none
    | some (v, rest) =>
      match skipSpace rest with
      | ',' :: rest2 =>
        (match scanElements fuel depth rest2 with
         | some (vs, rest3) => some (v :: vs, rest3)
         | none => none)
      | ']' :: rest2 => some ([v], rest2)
      | _ => none
end

/-- Go `foldRune` of `encoding/json`: the smallest character of the simple
case-folding orbit.  Only the orbits of ASCII letters matter for the ASCII
field names of `Message`: they hold the two cases of the letter and, for `s`
and `k`, U+017F and U+212A; every other character is left as it is -/
def foldRune (c : Char) : Char :=
  if 'a' ≤ c ∧ c ≤ 'z' then Char.ofNat (c.toNat - 32)
  else if c = Char.ofNat 0x17F then 'S'
  else if c = Char.ofNat 0x212A then 'K'
  else c

/-- Go `foldName` -/
def foldName (s : Str) : Str := s.map foldRune

/-- Fields of `Message` by the JSON name of their struct tag, each with the
assignment to the field -/
def messageFields : List (Str × (Message → Str → Message)) :=
  [ ("name", fun m v => { m with Name := v }),
    ("email", fun m v => { m with Email := v }),
    ("message", fun m v => { m with Message := v }) ]

/-- Field for an object key, as `d.object` finds it: by exact name, or else
by folded name -/
def findField (key : Str) : Option (Message → Str → Message) :=
  match messageFields.find? (fun f => f.1 = key) with
  | some f => some f.2
  | none => (messageFields.find? (fun f => foldName f.1 = foldName key)).map (·.2)

/-- Go `decodeState`: the value being filled and the first saved error -/
structure decodeState where
  msg : Message
  savedError : Option Str

/-- Go `d.saveError`: only the first error is kept -/
def decodeState.saveError (d : decodeState) (err : Str) : decodeState :=
  match d.savedError with
  | some _ => d
  | none => { d with savedError := some err }

/-- One member of an object in `d.object`: a key that names no field is
skipped; for a field of type `string` a JSON string is stored, `null` leaves
the field as it is, and any other value saves an `UnmarshalTypeError` -/
def decodeState.member (d : decodeState) (m : Str × JSON) : decodeState :=
  match findField m.1 with
  | none => d
  | some set =>
    match m.2 with
    | JSON.string s => { d with msg := set d.msg s }
    | JSON.null => d
    | _ => d.saveError "json: cannot unmarshal value into Go struct field of type string"

/-- Go `d.unmarshal(v)` for `v` of type `*Message` on a scanned value: an
object fills the struct member by member, `null` leaves it as it is, any
other value is an `UnmarshalTypeError` -/
def unmarshal (j : JSON) (v : Message) : Except Str Message :=
  match j with
  | JSON.object ms =>
    match (ms.foldl decodeState.member ⟨v, none⟩) with
    | ⟨_, some err⟩ => .error err
    | ⟨m, none⟩ => .ok m
  | JSON.null => .ok v
  | _ => .error "json: cannot unmarshal value into Go value of type main.Message"

/-- Go `json.Unmarshal(data, &v)`: `checkValid` accepts the input when it is
one JSON value with nothing but white space around it, then the value is
decoded into `v`.  The scanner gets more fuel than the input is long, which
is as good as any larger amount (`scanValue_fuel`) -/
def Unmarshal (data : Str) (v : Message) : Except Str Message :=
  match scanValue (data.length + 1) 0 data with
  | none => .error "json: syntax error"
  | some (j, rest) =>
    if skipSpace rest = [] then unmarshal j v
    else .error "json: invalid character after top-level value"

/-- Go `json.Valid(data)`: `checkValid` reports no error -/
def Valid (data : Str) : Bool :=
  match scanValue (data.length + 1) 0 data with
  | none => false
  | some (_, rest) => skipSpace rest = []

/-- Go `json.NewDecoder(r).Decode(&v)` on a stream holding `body`:
`readValue` reads up to the end of the first JSON value and leaves what
follows in the stream, then the value is decoded into `v` -/
def Decode (body : Str) (v : Message) : Except Str Message :=
  match scanValue (body.length + 1) 0 body with
  | none => .error "json: no complete value in the stream"
  | some (j, _) => unmarshal j v

/-! ## Package `encoding/json`: encoding -/

/-- Go `hex` digits of the encoder -/
def hexDigit (n : Nat) : Char := ("0123456789abcdef" : Str).getD n '0'

/-- One character of Go `appendString(dst, src, escapeHTML = true)` -/
def encodeRune (c : Char) : Str :=
  if c = '\\' ∨ c = '"' then ['\\', c]
  else if c = Char.ofNat 8 then "\\b"
  else if c = Char.ofNat 12 then "\\f"
  else if c = '\n' then "\\n"
  else if c = '\r' then "\\r"
  else if c = '\t' then "\\t"
  else if c.toNat < 32 ∨ c = '<' ∨ c = '>' ∨ c = '&' then
    ['\\', 'u', '0', '0', hexDigit (c.toNat / 16), hexDigit (c.toNat % 16)]
  else if c = Char.ofNat 0x2028 ∨ c = Char.ofNat 0x2029 then
    ['\\', 'u', '2', '0', '2', hexDigit (c.toNat % 16)]
  else [c]

/-- Characters of a string, each encoded -/
def encodeRunes : Str → Str
  | [] => []
  | c :: cs => encodeRune c ++ encodeRunes cs

/-- Go `appendString(dst, src, true)`: a quoted JSON string -/
def appendString (src : Str) : Str := '"' :: encodeRunes src ++ ['"']

/-- Byte order of Go strings -/
def strLess : Str → Str → Bool
  | [], [] => false
  | [], _ :: _ => true
  | _ :: _, [] => false
  | a :: as, b :: bs => a < b || (a = b && strLess as bs)

/-- Insert an entry into a list of entries sorted by key -/
def insertEntry (kv : Str × Str) : List (Str × Str) → List (Str × Str)
  | [] => [kv]
  | x :: xs => if strLess kv.1 x.1 then kv :: x :: xs else x :: insertEntry kv xs

/-- Entries of a map sorted by key, the order in which `mapEncoder` writes them -/
def sortEntries : List (Str × Str) → List (Str × Str)
  | [] => []
  | x :: xs => insertEntry x (sortEntries xs)

/-- Loop of `mapEncoder.encode`: a comma before every entry but the first,
then key, colon, value -/
def encodeEntries : Nat → List (Str × Str) → Str
  | _, [] => []
  | i, kv :: rest =>
    (if i > 0 then [','] else []) ++ appendString kv.1 ++ [':'] ++ appendString kv.2
      ++ encodeEntries (i + 1) rest

/-- Go `json.Marshal` on a `map[string]string`, given by its entries -/
def Marshal (m : List (Str × Str)) : Str :=
  '\x7b' :: encodeEntries 0 (sortEntries m) ++ ['\x7d']

/-! ## Package `net/http` -/

/-- Go `http.Header`, for keys in canonical form -/
structure Header where
  entries : List (Str × Str)
  deriving DecidableEq, Repr

/-- Go `Header.Del` -/
def Header.Del (h : Header) (key : Str) : Header :=
  ⟨h.entries.filter (fun kv => kv.1 ≠ key)⟩

/-- Go `Header.Set` -/
def Header.Set (h : Header) (key value : Str) : Header :=
  ⟨(h.Del key).entries ++ [(key, value)]⟩

/-- Go `Header.Get` -/
def Header.Get (h : Header) (key : Str) : Option Str :=
  (h.entries.find? (fun kv => kv.1 = key)).map (·.2)

/-- Go `http.ResponseWriter` of the server: the header map the handler
edits, and what has been sent: the status line with a snapshot of the header
map, taken by the first `WriteHeader`, and the body -/
structure ResponseWriter where
  header : Header
  wroteHeader : Bool
  status : Nat
  sentHeader : Header
  body : Str
  deriving DecidableEq, Repr

/-- Response writer of a new request -/
def ResponseWriter.fresh : ResponseWriter :=
  ⟨⟨[]⟩, false, 0, ⟨[]⟩, []⟩

/-- Go `w.WriteHeader(code)`: the first call sends the status and the
header map as it is then; a later call is superfluous and changes nothing -/
def ResponseWriter.WriteHeader (w : ResponseWriter) (code : Nat) : ResponseWriter :=
  if w.wroteHeader then w
  else { w with wroteHeader := true, status := code, sentHeader := w.header }

/-- Go `w.Write(data)`: sends status 200 first unless a status was sent.  The
`Content-Type` the server adds by sniffing the first bytes, when the sent
header map has none, is not modelled: `sentHeader` holds only what the
handler set before the status was sent -/
def ResponseWriter.Write (w : ResponseWriter) (data : Str) : ResponseWriter :=
  let w1 := if w.wroteHeader then w else w.WriteHeader 200
  { w1 with body := w1.body ++ data }

/-- Status of the response once the handler has returned: the server sends
200 when the handler sent none -/
def ResponseWriter.statusCode (w : ResponseWriter) : Nat :=
  if w.wroteHeader then w.status else 200

/-- Go `http.Error(w, error, code)` -/
def Error (w : ResponseWriter) (error : Str) (code : Nat) : ResponseWriter :=
  let h := w.header.Del "Content-Length"
  let h := h.Set "Content-Type" "text/plain; charset=utf-8"
  let h := h.Set "X-Content-Type-Options" "nosniff"
  let w := { w with header := h }
  let w := w.WriteHeader code
  w.Write (error ++ ['\n'])

def MethodPost : Str := "POST"
def MethodOptions : Str := "OPTIONS"
def StatusOK : Nat := 200
def StatusBadRequest : Nat := 400
def StatusMethodNotAllowed : Nat := 405
def StatusInternalServerError : Nat := 500

/-- Go `http.Request`, the parts the program reads -/
structure Request where
  Method : Str
  Path : Str
  Body : Str
  deriving DecidableEq, Repr

/-! ## The program: `sendEmail` -/

/-- Go `smtp.PlainAuth(identity, username, password, host)` -/
structure PlainAuth where
  identity : Str
  username : Str
  password : Str
  host : Str
  deriving DecidableEq, Repr

/-- Arguments of one call of `smtp.SendMail(addr, a, from, to, msg)` -/
structure SendMailCall where
  addr : Str
  a : PlainAuth
  sender : Str
  toAddrs : List Str
  msg : Str
  deriving DecidableEq, Repr

/-- The SMTP relay: the error `smtp.SendMail` returns for a call, `none` for `nil` -/
abbrev Transport := SendMailCall → Option Str

/-- What the program has done so far: the arguments of every entry into
`sendEmail` and of every call of `smtp.SendMail` -/
structure World where
  sendEmailCalls : List Message
  sent : List SendMailCall
  deriving DecidableEq, Repr

/-- Go `sendEmail(msg)` of both files, with the global `config` and the relay
as parameters; the result is the returned error, `none` for `nil` -/
def sendEmail (T : Transport) (config : Config) (msg : Message) (world : World) :
    Option Str × World :=
  let world := { world with sendEmailCalls := world.sendEmailCalls ++ [msg] }
  let auth : PlainAuth := ⟨[], config.SMTPUser, config.SMTPPass, smtpServer⟩
  match Parse emailTemplate with
  | .error err => (some err, world)
  | .ok t =>
    match Execute t msg with
    | .error err => (some err, world)
    | .ok body =>
      let headers : List Str :=
        [ ("From: " : Str) ++ config.SMTPUser,
          ("To: " : Str) ++ config.AdminEmail,
          ("Cc: " : Str) ++ config.CCEmails,
          ("Subject: " : Str) ++ emailSubject,
          "Content-Type: text/html; charset=\"utf-8\"" ]
      let message := Join headers "\r\n" ++ ("\r\n\r\n" : Str) ++ body
      let toAddresses := Split config.AdminEmail ','
      let ccAddresses := Split config.CCEmails ','
      let allRecipients := toAddresses ++ ccAddresses
      let call : SendMailCall :=
        ⟨smtpServer ++ (":" : Str) ++ smtpPort, auth, config.SMTPUser, allRecipients, message⟩
      (T call, { world with sent := world.sent ++ [call] })

/-! ## The program: HTTP server (`src/main.go`) -/

/-- State of a request in the HTTP server: the response writer and the world -/
structure HttpState where
  w : ResponseWriter
  world : World
  deriving DecidableEq, Repr

/-- Go `http.Handler`: `ServeHTTP(w, r)` -/
abbrev Handler := HttpState → Request → HttpState

/-- The map literal `response` of both handlers -/
def response : List (Str × Str) :=
  [ ("status", "success"),
    ("message", "Thank you for your message! We will get back to you soon.") ]

/-- Go `handleContactForm(w, r)` of `src/main.go`.  A write to the response
writer does not fail here, so `Encode` returns no error -/
def handleContactForm (T : Transport) (config : Config) : Handler := fun st r =>
  if r.Method ≠ MethodPost then
    { st with w := Error st.w "Invalid request method" StatusMethodNotAllowed }
  else
    match Decode r.Body ⟨[], [], []⟩ with
    | .error _ => { st with w := Error st.w "Failed to parse request body" StatusBadRequest }
    | .ok msg =>
      match sendEmail T config msg st.world with
      | (some _, world) =>
        { w := Error st.w "Failed to send email" StatusInternalServerError, world := world }
      | (none, world) =>
        let w := st.w.WriteHeader StatusOK
        let w := { w with header := w.header.Set "Content-Type" "application/json" }
        { w := w.Write (Marshal response ++ ['\n']), world := world }

/-- Go `withCORS(next)` of `src/main.go` -/
def withCORS (next : Handler) : Handler := fun st r =>
  let w := st.w
  let w := { w with header := w.header.Set "Access-Control-Allow-Origin" "*" }
  let w := { w with header := w.header.Set "Access-Control-Allow-Methods" "POST, OPTIONS" }
  let w := { w with header := w.header.Set "Access-Control-Allow-Headers" "Content-Type" }
  if r.Method = MethodOptions then
    { st with w := w.WriteHeader StatusOK }
  else
    next { st with w := w } r

/-! ## The program: serverless handler (`src/netlify/functions/contact/main.go`) -/

/-- Go `events.APIGatewayProxyRequest`, the parts the program reads -/
structure APIGatewayProxyRequest where
  HTTPMethod : Str
  Body : Str
  deriving DecidableEq, Repr

/-- Go `events.APIGatewayProxyResponse`, the parts the program sets -/
structure APIGatewayProxyResponse where
  StatusCode : Nat
  Body : Str
  deriving DecidableEq, Repr

/-- Go `handleRequest(ctx, request)` of the serverless file; the result is the
response, the returned error (always `nil`) and the world -/
def handleRequest (T : Transport) (config : Config) (request : APIGatewayProxyRequest)
    (world : World) : (APIGatewayProxyResponse × Option Str) × World :=
  if request.HTTPMethod ≠ MethodPost then
    ((⟨StatusMethodNotAllowed, "Invalid request method"⟩, none), world)
  else
    match Unmarshal request.Body ⟨[], [], []⟩ with
    | .error _ => ((⟨StatusBadRequest, "Failed to parse request body"⟩, none), world)
    | .ok msg =>
      match sendEmail T config msg world with
      | (some _, world) => ((⟨StatusInternalServerError, "Failed to send email"⟩, none), world)
      | (none, world) =>
        let responseBody := Marshal response
        ((⟨StatusOK, responseBody⟩, none), world)


/-! ## Sample data for the closed statements -/

/-- A configuration with one admin and one CC address -/
def sampleConfig : Config :=
  ⟨"mailer@example.org", "secret", "admin@example.org", "cc@example.org"⟩

/-- A request body with all three fields -/
def sampleBody : Str :=
  "\x7b\"name\":\"Ann\",\"email\":\"ann@example.org\",\"message\":\"Hi\"\x7d"

/-- The submission in `sampleBody` -/
def sampleMessage : Message := ⟨"Ann", "ann@example.org", "Hi"⟩

/-- A request body that is a JSON object without the field `message` -/
def bodyWithoutMessage : Str :=
  "\x7b\"name\":\"Ann\",\"email\":\"ann@example.org\"\x7d"

/-- The body `sampleBody` followed by text that is not JSON -/
def bodyWithTrailer : Str :=
  "\x7b\"name\":\"Ann\",\"email\":\"ann@example.org\",\"message\":\"Hi\"\x7d trailing"

/-- The success body as the specification spells it, `status` first -/
def specSuccessBody : Str :=
  "\x7b\"status\":\"success\",\"message\":\"Thank you for your message! We will get back to you soon.\"\x7d"

/-- The success body as `encoding/json` writes it, keys sorted -/
def sortedSuccessBody : Str :=
  "\x7b\"message\":\"Thank you for your message! We will get back to you soon.\",\"status\":\"success\"\x7d"

/-! ## Lemmas on `strings` -/

theorem Index_none {s : Str} {sep : Char} (h : Index s sep = none) : Count s sep = 0 := by
  induction s with
  | nil => rfl
  | cons x xs ih =>
    unfold Index at h
    by_cases hx : x = sep
    · simp [hx] at h
    · simp only [hx, if_false, Option.map_eq_none'] at h
      simp [Count, hx, ih h]

theorem Index_some {s : Str} {sep : Char} {m : Nat} (h : Index s sep = some m) :
    s = s.take m ++ sep :: s.drop (m + 1) ∧ Count (s.take m) sep = 0 ∧
      Count s sep = Count (s.drop (m + 1)) sep + 1 := by
  induction s generalizing m with
  | nil => simp [Index] at h
  | cons x xs ih =>
    unfold Index at h
    by_cases hx : x = sep
    · simp only [hx, if_true, Option.some.injEq] at h
      subst h
      simp [hx, Count]
    · simp only [hx, if_false, Option.map_eq_some'] at h
      obtain ⟨k, hk, rfl⟩ := h
      obtain ⟨h1, h2, h3⟩ := ih hk
      refine ⟨?_, ?_, ?_⟩
      · simp only [List.take_succ_cons, List.drop_succ_cons, List.cons_append]
        exact congrArg _ h1
      · simp [Count, hx, h2]
      · simp [Count, hx, h3]

theorem Count_eq_count (s : Str) (sep : Char) : Count s sep = s.count sep := by
  induction s with
  | nil => rfl
  | cons x xs ih =>
    by_cases hx : x = sep
    · subst hx
      simp [Count, ih]
    · have hne : (x == sep) = false := by simpa using hx
      simp [Count, hx, ih, List.count_cons, hne]

theorem Join_cons (e : Str) (rest : List Str) (sep : Str) :
    Join (e :: rest) sep = e ++ (rest.map (sep ++ ·)).flatten := by
  have key : ∀ (l : List Str) (b : Str),
      l.foldl (fun b s => b ++ sep ++ s) b = b ++ (l.map (sep ++ ·)).flatten := by
    intro l
    induction l with
    | nil => intro b; simp
    | cons y ys ih =>
      intro b
      simp only [List.foldl_cons, List.map_cons, List.flatten_cons]
      rw [ih]
      simp [List.append_assoc]
  cases rest with
  | nil => simp [Join]
  | cons y ys => simp only [Join]; exact key _ _

theorem genSplitLoop_length (sep : Char) :
    ∀ (n : Nat) (s : Str), Count s sep ≤ n → (genSplitLoop sep n s).length = Count s sep + 1 := by
  intro n
  induction n with
  | zero => intro s h; simp [genSplitLoop]; omega
  | succ n ih =>
    intro s h
    unfold genSplitLoop
    cases hi : Index s sep with
    | none => simp [Index_none hi]
    | some m =>
      obtain ⟨_, _, h3⟩ := Index_some hi
      simp only [List.length_cons]
      rw [ih _ (by omega), h3]

theorem genSplitLoop_ne_nil (sep : Char) (n : Nat) (s : Str) : genSplitLoop sep n s ≠ [] := by
  cases n with
  | zero => simp [genSplitLoop]
  | succ n =>
    unfold genSplitLoop
    cases Index s sep <;> simp

theorem genSplitLoop_join (sep : Char) :
    ∀ (n : Nat) (s : Str), Count s sep ≤ n → Join (genSplitLoop sep n s) [sep] = s := by
  intro n
  induction n with
  | zero => intro s _; simp [genSplitLoop, Join]
  | succ n ih =>
    intro s h
    unfold genSplitLoop
    cases hi : Index s sep with
    | none => simp [Join]
    | some m =>
      obtain ⟨h1, _, h3⟩ := Index_some hi
      have hrec := ih (s.drop (m + 1)) (by omega)
      simp only [Join_cons]
      obtain ⟨e, rest, he⟩ := List.exists_cons_of_ne_nil (genSplitLoop_ne_nil sep n (s.drop (m + 1)))
      rw [he] at hrec ⊢
      rw [Join_cons] at hrec
      simp only [List.map_cons, List.flatten_cons, List.singleton_append, List.cons_append]
      conv_rhs => rw [h1]
      rw [← hrec]
      simp

theorem Split_length (s : Str) (sep : Char) : (Split s sep).length = Count s sep + 1 :=
  genSplitLoop_length sep _ s (Nat.le_refl _)

theorem Split_ne_nil (s : Str) (sep : Char) : Split s sep ≠ [] :=
  genSplitLoop_ne_nil sep _ s

theorem Join_Split (s : Str) (sep : Char) : Join (Split s sep) [sep] = s :=
  genSplitLoop_join sep _ s (Nat.le_refl _)

theorem Join_append {a b : List Str} (ha : a ≠ []) (hb : b ≠ []) (sep : Str) :
    Join (a ++ b) sep = Join a sep ++ sep ++ Join b sep := by
  obtain ⟨x, xs, rfl⟩ := List.exists_cons_of_ne_nil ha
  obtain ⟨y, ys, rfl⟩ := List.exists_cons_of_ne_nil hb
  simp [Join_cons, List.append_assoc]

theorem Count_zero_not_mem {s : Str} {sep : Char} (h : Count s sep = 0) : sep ∉ s := by
  induction s with
  | nil => simp
  | cons x xs ih =>
    by_cases hx : x = sep
    · simp [Count, hx] at h
    · simp only [Count, hx, if_false] at h
      simp only [List.mem_cons, not_or]
      exact ⟨fun e => hx e.symm, ih h⟩

theorem Count_of_not_mem {s : Str} {sep : Char} (h : sep ∉ s) : Count s sep = 0 := by
  induction s with
  | nil => rfl
  | cons x xs ih =>
    simp only [List.mem_cons, not_or] at h
    have hx : ¬ x = sep := fun e => h.1 e.symm
    simp only [Count, hx, if_false]
    exact ih h.2

theorem Index_of_not_mem {s : Str} {sep : Char} (h : sep ∉ s) : Index s sep = none := by
  induction s with
  | nil => rfl
  | cons x xs ih =>
    simp only [List.mem_cons, not_or] at h
    have hx : ¬ x = sep := fun e => h.1 e.symm
    simp only [Index, hx, if_false, ih h.2, Option.map_none']

theorem Index_append {a : Str} {sep : Char} (b : Str) (h : sep ∉ a) :
    Index (a ++ sep :: b) sep = some a.length := by
  induction a with
  | nil => simp [Index]
  | cons x xs ih =>
    simp only [List.mem_cons, not_or] at h
    have hx : ¬ x = sep := fun e => h.1 e.symm
    show Index (x :: (xs ++ sep :: b)) sep = some (xs.length + 1)
    unfold Index
    rw [if_neg hx, ih h.2]
    rfl

theorem Count_append_sep {a : Str} {sep : Char} (b : Str) (h : sep ∉ a) :
    Count (a ++ sep :: b) sep = Count b sep + 1 := by
  induction a with
  | nil => simp [Count]
  | cons x xs ih =>
    simp only [List.mem_cons, not_or] at h
    have hx : ¬ x = sep := fun e => h.1 e.symm
    have hstep : Count (x :: (xs ++ sep :: b)) sep = Count (xs ++ sep :: b) sep := by
      simp [Count, hx]
    show Count (x :: (xs ++ sep :: b)) sep = Count b sep + 1
    rw [hstep, ih h.2]

theorem genSplitLoop_no_sep (sep : Char) :
    ∀ (n : Nat) (s : Str), Count s sep ≤ n → ∀ a ∈ genSplitLoop sep n s, sep ∉ a := by
  intro n
  induction n with
  | zero =>
    intro s h a ha
    simp only [genSplitLoop, List.mem_singleton] at ha
    subst ha
    exact Count_zero_not_mem (Nat.le_zero.mp h)
  | succ n ih =>
    intro s h a ha
    unfold genSplitLoop at ha
    cases hi : Index s sep with
    | none =>
      rw [hi] at ha
      simp only [List.mem_singleton] at ha
      subst ha
      exact Count_zero_not_mem (Index_none hi)
    | some m =>
      rw [hi] at ha
      obtain ⟨_, h2, h3⟩ := Index_some hi
      simp only [List.mem_cons] at ha
      rcases ha with rfl | ha
      · exact Count_zero_not_mem h2
      · exact ih _ (by omega) a ha

/-- No segment of a split holds the separator -/
theorem Split_no_sep (s : Str) (sep : Char) : ∀ a ∈ Split s sep, sep ∉ a :=
  genSplitLoop_no_sep sep _ s (Nat.le_refl _)

/-- A string without the separator is its own single segment -/
theorem Split_of_not_mem {s : Str} {sep : Char} (h : sep ∉ s) : Split s sep = [s] := by
  unfold Split
  rw [Count_of_not_mem h]
  rfl

/-- The first segment ends at the first separator and the split goes on behind it -/
theorem Split_append {a : Str} {sep : Char} (b : Str) (h : sep ∉ a) :
    Split (a ++ sep :: b) sep = a :: Split b sep := by
  unfold Split
  rw [Count_append_sep b h]
  simp only [genSplitLoop, Index_append b h]
  simp

/-! ## Lemmas on the template -/

set_option maxRecDepth 100000 in
theorem emailTemplate_eq :
    emailTemplate = templateHead ++ ("\x7b\x7b.Name\x7d\x7d" : Str) ++ templateAfterName
      ++ ("\x7b\x7b.Email\x7d\x7d" : Str) ++ templateAfterEmail
      ++ ("\x7b\x7b.Message\x7d\x7d" : Str) ++ templateTail := by
  rfl

set_option maxRecDepth 100000 in
theorem Parse_emailTemplate :
    Parse emailTemplate = .ok
      [ Node.text templateHead, Node.field "Name", Node.text templateAfterName,
        Node.field "Email", Node.text templateAfterEmail, Node.field "Message",
        Node.text templateTail ] := by
  rfl

theorem Execute_emailTemplate (msg : Message) :
    Execute
      [ Node.text templateHead, Node.field "Name", Node.text templateAfterName,
        Node.field "Email", Node.text templateAfterEmail, Node.field "Message",
        Node.text templateTail ] msg
      = .ok (templateHead ++ (htmlEscaper msg.Name ++ (templateAfterName ++
          (htmlEscaper msg.Email ++ (templateAfterEmail ++
            (htmlEscaper msg.Message ++ (templateTail ++ []))))))) := by
  have h1 : evalField msg "Name" = .ok msg.Name := by simp [evalField]
  have h2 : evalField msg "Email" = .ok msg.Email := by
    unfold evalField; rw [if_neg (by decide), if_pos rfl]
  have h3 : evalField msg "Message" = .ok msg.Message := by
    unfold evalField; rw [if_neg (by decide), if_neg (by decide), if_pos rfl]
  simp only [Execute, h1, h2, h3]

/-- The call of `smtp.SendMail` and the new world, in closed form -/
theorem sendEmail_eq (T : Transport) (config : Config) (msg : Message) (world : World) :
    ∃ call : SendMailCall,
      sendEmail T config msg world =
        (T call, ⟨world.sendEmailCalls ++ [msg], world.sent ++ [call]⟩) ∧
      call.addr = smtpServer ++ (":" : Str) ++ smtpPort ∧
      call.a = ⟨[], config.SMTPUser, config.SMTPPass, smtpServer⟩ ∧
      call.sender = config.SMTPUser ∧
      call.toAddrs = Split config.AdminEmail ',' ++ Split config.CCEmails ',' ∧
      call.msg =
        Join [ ("From: " : Str) ++ config.SMTPUser, ("To: " : Str) ++ config.AdminEmail,
               ("Cc: " : Str) ++ config.CCEmails, ("Subject: " : Str) ++ emailSubject,
               "Content-Type: text/html; charset=\"utf-8\"" ] "\r\n"
          ++ ("\r\n\r\n" : Str)
          ++ (templateHead ++ htmlEscaper msg.Name ++ templateAfterName
                ++ htmlEscaper msg.Email ++ templateAfterEmail
                ++ htmlEscaper msg.Message ++ templateTail) := by
  refine ⟨⟨_, _, _, _, _⟩, ?_, rfl, rfl, rfl, rfl, rfl⟩
  unfold sendEmail
  simp only [Parse_emailTemplate, Execute_emailTemplate, List.append_nil, List.append_assoc]

/-! ## Lemmas on the escaper -/

theorem htmlReplacer_append (a b : Str) :
    htmlReplacer (a ++ b) = htmlReplacer a ++ htmlReplacer b := by
  induction a with
  | nil => rfl
  | cons c cs ih => simp [htmlReplacer, ih]

/-- Shape of a replacement: a character reference, or text without `&`,
`<` and `"` -/
theorem replacement_shape (c : Char) :
    (∃ tail ∈ entityTails,
        (match htmlReplacementTable c with
          | some repl => repl
          | none => [c]) = '&' :: tail ∧ '&' ∉ tail ∧ '<' ∉ tail ∧ '"' ∉ tail) ∨
      ('&' ∉ (match htmlReplacementTable c with
          | some repl => repl
          | none => [c]) ∧
       '<' ∉ (match htmlReplacementTable c with
          | some repl => repl
          | none => [c]) ∧
       '"' ∉ (match htmlReplacementTable c with
          | some repl => repl
          | none => [c])) := by
  unfold htmlReplacementTable
  split_ifs with h0 h1 h2 h3 h4 h5 h6 <;> dsimp only
  · right; decide
  · left; exact ⟨"#34;", by decide, by decide⟩
  · left; exact ⟨"amp;", by decide, by decide⟩
  · left; exact ⟨"#39;", by decide, by decide⟩
  · left; exact ⟨"#43;", by decide, by decide⟩
  · left; exact ⟨"lt;", by decide, by decide⟩
  · left; exact ⟨"gt;", by decide, by decide⟩
  · right
    simp only [List.mem_singleton]
    exact ⟨fun h => h2 h.symm, fun h => h5 h.symm, fun h => h1 h.symm⟩

theorem htmlReplacer_no_raw (f : Str) : '<' ∉ htmlReplacer f ∧ '"' ∉ htmlReplacer f := by
  induction f with
  | nil => simp [htmlReplacer]
  | cons c cs ih =>
    simp only [htmlReplacer, List.mem_append, not_or]
    rcases replacement_shape c with ⟨tail, _, he, _, h1, h2⟩ | ⟨_, h1, h2⟩
    · rw [he]
      refine ⟨⟨?_, ih.1⟩, ⟨?_, ih.2⟩⟩
      · simp only [List.mem_cons, not_or]; exact ⟨by decide, h1⟩
      · simp only [List.mem_cons, not_or]; exact ⟨by decide, h2⟩
    · exact ⟨⟨h1, ih.1⟩, ⟨h2, ih.2⟩⟩

theorem htmlReplacer_ampersand (f : Str) :
    ∀ pre post : Str, htmlReplacer f = pre ++ '&' :: post → ∃ e ∈ entityTails, e <+: post := by
  induction f with
  | nil => intro pre post h; simp [htmlReplacer] at h
  | cons c cs ih =>
    intro pre post h
    simp only [htmlReplacer] at h
    rcases List.append_eq_append_iff.mp h with ⟨a, hpre, hrest⟩ | ⟨b, hrepl, hrest⟩
    · exact ih a post hrest
    · cases b with
      | nil => exact ih [] post (by simpa using hrest.symm)
      | cons x b =>
        simp only [List.cons_append, List.cons.injEq] at hrest
        obtain ⟨hx, hpost⟩ := hrest
        subst hx
        rcases replacement_shape c with ⟨tail, hmem, he, hamp, _, _⟩ | ⟨hamp, _, _⟩
        · rw [he] at hrepl
          cases pre with
          | nil =>
            simp only [List.nil_append, List.cons.injEq, true_and] at hrepl
            subst hrepl
            exact ⟨tail, hmem, hpost ▸ List.prefix_append _ _⟩
          | cons p pre =>
            simp only [List.cons_append, List.cons.injEq] at hrepl
            exact absurd (hrepl.2 ▸ List.mem_append_right pre (List.mem_cons_self _ _)) hamp
        · exact absurd (hrepl ▸ List.mem_append_right pre (List.mem_cons_self _ _)) hamp

/-! ## Lemmas on the JSON scanner: the fuel is enough -/

theorem skipSpace_length (s : Str) : (skipSpace s).length ≤ s.length := by
  induction s with
  | nil => simp [skipSpace]
  | cons c cs ih =>
    unfold skipSpace at ih ⊢
    rw [List.dropWhile_cons]
    split
    · exact Nat.le_succ_of_le ih
    · exact Nat.le_refl _

theorem skipSpace_cons {s r : Str} {c : Char} (h : skipSpace s = c :: r) :
    r.length < s.length := by
  have := skipSpace_length s
  rw [h] at this
  exact this

theorem scanString_length_aux : ∀ (n : Nat) (s raw rest : Str), s.length ≤ n →
    scanString s = some (raw, rest) → rest.length ≤ s.length := by
  intro n
  induction n with
  | zero =>
    intro s raw rest hn h
    have hs : s = [] := List.eq_nil_of_length_eq_zero (Nat.le_zero.mp hn)
    subst hs
    simp [scanString] at h
  | succ n ih =>
    intro s raw rest hn h
    unfold scanString at h
    split at h
    · cases h
    · simp only [Option.some.injEq, Prod.mk.injEq] at h
      rw [← h.2]
      exact Nat.le_succ _
    · split at h
      · rename_i hr
        simp only [Option.some.injEq, Prod.mk.injEq] at h
        rw [← h.2]
        have := ih _ _ _ (by simp only [List.length_cons] at hn; omega) hr
        simp only [List.length_cons]
        omega
      · cases h
    · split at h
      · split at h
        · rename_i hr
          simp only [Option.some.injEq, Prod.mk.injEq] at h
          rw [← h.2]
          have := ih _ _ _ (by simp only [List.length_cons] at hn; omega) hr
          simp only [List.length_cons]
          omega
        · cases h
      · cases h
    · split at h
      · cases h
      · split at h
        · rename_i hr
          simp only [Option.some.injEq, Prod.mk.injEq] at h
          rw [← h.2]
          have := ih _ _ _ (by simp only [List.length_cons] at hn; omega) hr
          simp only [List.length_cons]
          omega
        · cases h

theorem scanString_length {s raw rest : Str} (h : scanString s = some (raw, rest)) :
    rest.length ≤ s.length :=
  scanString_length_aux s.length s raw rest (Nat.le_refl _) h

theorem dropWhile_length (p : Char → Bool) (s : Str) : (s.dropWhile p).length ≤ s.length := by
  induction s with
  | nil => simp
  | cons c cs ih =>
    rw [List.dropWhile_cons]
    split
    · exact Nat.le_succ_of_le ih
    · exact Nat.le_refl _

theorem scanInt_length {s i rest : Str} (h : scanInt s = some (i, rest)) :
    rest.length < s.length := by
  unfold scanInt at h
  split at h
  · simp only [Option.some.injEq, Prod.mk.injEq] at h
    rw [← h.2]; simp
  · split at h
    · simp only [Option.some.injEq, Prod.mk.injEq] at h
      rw [← h.2]
      exact Nat.lt_succ_of_le (dropWhile_length _ _)
    · cases h
  · cases h

theorem scanFraction_length {s f rest : Str} (h : scanFraction s = some (f, rest)) :
    rest.length ≤ s.length := by
  unfold scanFraction at h
  split at h
  · split at h
    · cases h
    · rename_i hd
      simp only [Option.some.injEq, Prod.mk.injEq] at h
      rw [← h.2]
      simp only [scanDigits, Prod.mk.injEq] at hd
      rw [← hd.2]
      exact Nat.le_trans (dropWhile_length _ _) (by simp)
  · simp only [Option.some.injEq, Prod.mk.injEq] at h
    rw [← h.2]

theorem scanExponent_length {s e rest : Str} (h : scanExponent s = some (e, rest)) :
    rest.length ≤ s.length := by
  unfold scanExponent at h
  split at h
  · split at h
    · split at h
      · split at h
        · split at h
          · cases h
          · rename_i hd
            simp only [Option.some.injEq, Prod.mk.injEq] at h
            rw [← h.2]
            simp only [scanDigits, Prod.mk.injEq] at hd
            rw [← hd.2]
            exact Nat.le_trans (dropWhile_length _ _) (by simp only [List.length_cons]; omega)
        · split at h
          · cases h
          · rename_i hd
            simp only [Option.some.injEq, Prod.mk.injEq] at h
            rw [← h.2]
            simp only [scanDigits, Prod.mk.injEq] at hd
            rw [← hd.2]
            exact Nat.le_trans (dropWhile_length _ _) (by simp)
      · cases h
    · simp only [Option.some.injEq, Prod.mk.injEq] at h
      rw [← h.2]
  · simp only [Option.some.injEq, Prod.mk.injEq] at h
    rw [← h.2]

theorem scanNumber_length {s lit rest : Str} (h : scanNumber s = some (lit, rest)) :
    rest.length < s.length := by
  unfold scanNumber at h
  split at h
  rename_i sign s1 hsign
  have h1 : s1.length ≤ s.length := by
    split at hsign
    · simp only [Prod.mk.injEq] at hsign
      rw [← hsign.2]; simp
    · simp only [Prod.mk.injEq] at hsign
      rw [← hsign.2]
  split at h
  · cases h
  · rename_i hi
    split at h
    · cases h
    · rename_i hf
      split at h
      · cases h
      · rename_i he
        simp only [Option.some.injEq, Prod.mk.injEq] at h
        rw [← h.2]
        have := scanInt_length hi
        have := scanFraction_length hf
        have := scanExponent_length he
        omega

theorem scanScalar_length {s : Str} {v : JSON} {rest : Str}
    (h : scanScalar s = some (v, rest)) : rest.length < s.length := by
  unfold scanScalar at h
  split at h
  · split at h
    · rename_i hr
      simp only [Option.some.injEq, Prod.mk.injEq] at h
      rw [← h.2]
      exact Nat.lt_succ_of_le (scanString_length hr)
    · cases h
  · simp only [Option.some.injEq, Prod.mk.injEq] at h
    rw [← h.2]; simp only [List.length_cons]; omega
  · simp only [Option.some.injEq, Prod.mk.injEq] at h
    rw [← h.2]; simp only [List.length_cons]; omega
  · simp only [Option.some.injEq, Prod.mk.injEq] at h
    rw [← h.2]; simp only [List.length_cons]; omega
  · split at h
    · split at h
      · rename_i hr
        simp only [Option.some.injEq, Prod.mk.injEq] at h
        rw [← h.2]
        exact scanNumber_length hr
      · cases h
    · cases h
  · cases h

theorem scan_fuel :
    ∀ f : Nat,
      (∀ d s v rest g, scanValue f d s = some (v, rest) →
        rest.length < s.length ∧
          (s.length ≤ g + 1 + rest.length → scanValue (g + 1) d s = some (v, rest))) ∧
      (∀ d s v rest g, scanMembers f d s = some (v, rest) →
        rest.length < s.length ∧
          (s.length ≤ g + 1 + rest.length → scanMembers (g + 1) d s = some (v, rest))) ∧
      (∀ d s v rest g, scanElements f d s = some (v, rest) →
        rest.length < s.length ∧
          (s.length ≤ g + 1 + rest.length → scanElements (g + 1) d s = some (v, rest))) := by
  intro f
  induction f with
  | zero =>
    refine ⟨?_, ?_, ?_⟩ <;> intro d s v rest g h
    · simp [scanValue] at h
    · simp [scanMembers] at h
    · simp [scanElements] at h
  | succ f ih =>
    obtain ⟨ihv, ihm, ihe⟩ := ih
    refine ⟨?_, ?_, ?_⟩
    · intro d s v rest g h
      rw [scanValue] at h ⊢
      split at h
      · rename_i hs
        have hs1 := skipSpace_cons hs
        split at h
        · cases h
        · rename_i hd
          rw [if_neg hd]
          split at h
          · rename_i hc
            have hc1 := skipSpace_cons hc
            simp only [Option.some.injEq, Prod.mk.injEq] at h
            obtain ⟨rfl, rfl⟩ := h
            exact ⟨by omega, fun _ => rfl⟩
          · split at h
            · rename_i hm
              simp only [Option.some.injEq, Prod.mk.injEq] at h
              obtain ⟨rfl, rfl⟩ := h
              have hlen := (ihm _ _ _ _ 0 hm).1
              refine ⟨by omega, fun hg => ?_⟩
              obtain ⟨g0, rfl⟩ : ∃ g0, g = g0 + 1 := ⟨g - 1, by omega⟩
              rw [(ihm _ _ _ _ g0 hm).2 (by omega)]
            · cases h
      · rename_i hs
        have hs1 := skipSpace_cons hs
        split at h
        · cases h
        · rename_i hd
          rw [if_neg hd]
          split at h
          · rename_i hc
            have hc1 := skipSpace_cons hc
            simp only [Option.some.injEq, Prod.mk.injEq] at h
            obtain ⟨rfl, rfl⟩ := h
            exact ⟨by omega, fun _ => rfl⟩
          · split at h
            · rename_i hm
              simp only [Option.some.injEq, Prod.mk.injEq] at h
              obtain ⟨rfl, rfl⟩ := h
              have hlen := (ihe _ _ _ _ 0 hm).1
              refine ⟨by omega, fun hg => ?_⟩
              obtain ⟨g0, rfl⟩ : ∃ g0, g = g0 + 1 := ⟨g - 1, by omega⟩
              rw [(ihe _ _ _ _ g0 hm).2 (by omega)]
            · cases h
      · have := scanScalar_length h
        have := skipSpace_length s
        exact ⟨by omega, fun _ => h⟩
    · intro d s v rest g h
      rw [scanMembers] at h ⊢
      split at h
      · rename_i hs
        have hs1 := skipSpace_cons hs
        split at h
        · cases h
        · rename_i hstr
          have hstr1 := scanString_length hstr
          split at h
          · rename_i hcol
            have hcol1 := skipSpace_cons hcol
            split at h
            · cases h
            · rename_i hv
              have hv1 := (ihv _ _ _ _ 0 hv).1
              split at h
              · rename_i hcomma
                have hcomma1 := skipSpace_cons hcomma
                split at h
                · rename_i hm
                  simp only [Option.some.injEq, Prod.mk.injEq] at h
                  obtain ⟨rfl, rfl⟩ := h
                  have hm1 := (ihm _ _ _ _ 0 hm).1
                  refine ⟨by omega, fun hg => ?_⟩
                  obtain ⟨g0, rfl⟩ : ∃ g0, g = g0 + 1 := ⟨g - 1, by omega⟩
                  rw [(ihv _ _ _ _ g0 hv).2 (by omega)]
                  dsimp only
                  rw [hcomma]
                  have hrec := (ihm _ _ _ _ g0 hm).2 (by omega)
                  split
                  · rename_i heq
                    cases heq
                    rw [hrec]
                  · rename_i heq
                    cases heq
                  · rename_i hno _
                    exact absurd rfl (hno _)
                · cases h
              · rename_i hclose
                have hclose1 := skipSpace_cons hclose
                simp only [Option.some.injEq, Prod.mk.injEq] at h
                obtain ⟨rfl, rfl⟩ := h
                refine ⟨by omega, fun hg => ?_⟩
                obtain ⟨g0, rfl⟩ : ∃ g0, g = g0 + 1 := ⟨g - 1, by omega⟩
                rw [(ihv _ _ _ _ g0 hv).2 (by omega)]
                dsimp only
                rw [hclose]
                rfl
              · cases h
          · cases h
      · cases h
    · intro d s v rest g h
      rw [scanElements] at h ⊢
      split at h
      · cases h
      · rename_i hv
        have hv1 := (ihv _ _ _ _ 0 hv).1
        split at h
        · rename_i hcomma
          have hcomma1 := skipSpace_cons hcomma
          split at h
          · rename_i hm
            simp only [Option.some.injEq, Prod.mk.injEq] at h
            obtain ⟨rfl, rfl⟩ := h
            have hm1 := (ihe _ _ _ _ 0 hm).1
            refine ⟨by omega, fun hg => ?_⟩
            obtain ⟨g0, rfl⟩ : ∃ g0, g = g0 + 1 := ⟨g - 1, by omega⟩
            rw [(ihv _ _ _ _ g0 hv).2 (by omega)]
            dsimp only
            rw [hcomma]
            have hrec := (ihe _ _ _ _ g0 hm).2 (by omega)
            split
            · rename_i heq
              cases heq
              rw [hrec]
            · rename_i heq
              cases heq
            · rename_i hno _
              exact absurd rfl (hno _)
          · cases h
        · rename_i hclose
          have hclose1 := skipSpace_cons hclose
          simp only [Option.some.injEq, Prod.mk.injEq] at h
          obtain ⟨rfl, rfl⟩ := h
          refine ⟨by omega, fun hg => ?_⟩
          obtain ⟨g0, rfl⟩ : ∃ g0, g = g0 + 1 := ⟨g - 1, by omega⟩
          rw [(ihv _ _ _ _ g0 hv).2 (by omega)]
          dsimp only
          rw [hclose]
          rfl
        · cases h

/-- The scanner does not depend on its fuel once the fuel exceeds the length
of the input: `Unmarshal`, `Valid` and `Decode` never run out of it -/
theorem scanValue_fuel (f d : Nat) (s : Str) (hf : s.length < f) :
    scanValue f d s = scanValue (s.length + 1) d s := by
  obtain ⟨f0, rfl⟩ : ∃ f0, f = f0 + 1 := ⟨f - 1, by omega⟩
  cases h1 : scanValue (s.length + 1) d s with
  | some r =>
    obtain ⟨v, rest⟩ := r
    exact ((scan_fuel _).1 d s v rest f0 h1).2 (by omega)
  | none =>
    cases h2 : scanValue (f0 + 1) d s with
    | none => rfl
    | some r =>
      obtain ⟨v, rest⟩ := r
      rw [((scan_fuel _).1 d s v rest s.length h2).2 (by omega)] at h1
      cases h1

/-! ## Lemmas on the response writer and the handlers -/

theorem Error_statusCode (w : ResponseWriter) (e : Str) (code : Nat)
    (hw : w.wroteHeader = false) : (Error w e code).statusCode = code := by
  simp [Error, ResponseWriter.Write, ResponseWriter.WriteHeader, ResponseWriter.statusCode, hw]

theorem handleContactForm_not_post (T : Transport) (config : Config) (st : HttpState)
    (r : Request) (hm : r.Method ≠ MethodPost) :
    handleContactForm T config st r =
      { st with w := Error st.w "Invalid request method" StatusMethodNotAllowed } := by
  unfold handleContactForm
  rw [if_pos hm]

theorem handleContactForm_decode_error (T : Transport) (config : Config) (st : HttpState)
    (r : Request) (e : Str) (hm : r.Method = MethodPost)
    (hd : Decode r.Body ⟨[], [], []⟩ = .error e) :
    handleContactForm T config st r =
      { st with w := Error st.w "Failed to parse request body" StatusBadRequest } := by
  unfold handleContactForm
  rw [if_neg (not_not.mpr hm), hd]

theorem handleContactForm_send_error (T : Transport) (config : Config) (st : HttpState)
    (r : Request) (msg : Message) (e : Str) (hm : r.Method = MethodPost)
    (hd : Decode r.Body ⟨[], [], []⟩ = .ok msg)
    (hs : (sendEmail T config msg st.world).1 = some e) :
    handleContactForm T config st r =
      { w := Error st.w "Failed to send email" StatusInternalServerError,
        world := (sendEmail T config msg st.world).2 } := by
  unfold handleContactForm
  rw [if_neg (not_not.mpr hm), hd]
  cases hse : sendEmail T config msg st.world with
  | mk err world =>
    rw [hse] at hs
    simp only at hs
    subst hs
    dsimp only
    rw [hse]

theorem handleContactForm_success (T : Transport) (config : Config) (st : HttpState)
    (r : Request) (msg : Message) (hm : r.Method = MethodPost)
    (hd : Decode r.Body ⟨[], [], []⟩ = .ok msg)
    (hs : (sendEmail T config msg st.world).1 = none) :
    handleContactForm T config st r =
      { w := ResponseWriter.Write
          { st.w.WriteHeader StatusOK with
            header := (st.w.WriteHeader StatusOK).header.Set "Content-Type" "application/json" }
          (Marshal response ++ ['\n']),
        world := (sendEmail T config msg st.world).2 } := by
  unfold handleContactForm
  rw [if_neg (not_not.mpr hm), hd]
  cases hse : sendEmail T config msg st.world with
  | mk err world =>
    rw [hse] at hs
    simp only at hs
    subst hs
    dsimp only
    rw [hse]

theorem handleRequest_not_post (T : Transport) (config : Config)
    (request : APIGatewayProxyRequest) (world : World) (hm : request.HTTPMethod ≠ MethodPost) :
    handleRequest T config request world =
      ((⟨StatusMethodNotAllowed, "Invalid request method"⟩, none), world) := by
  unfold handleRequest
  rw [if_pos hm]

theorem handleRequest_decode_error (T : Transport) (config : Config)
    (request : APIGatewayProxyRequest) (world : World) (e : Str)
    (hm : request.HTTPMethod = MethodPost)
    (hd : Unmarshal request.Body ⟨[], [], []⟩ = .error e) :
    handleRequest T config request world =
      ((⟨StatusBadRequest, "Failed to parse request body"⟩, none), world) := by
  unfold handleRequest
  rw [if_neg (not_not.mpr hm), hd]

theorem handleRequest_send_error (T : Transport) (config : Config)
    (request : APIGatewayProxyRequest) (world : World) (msg : Message) (e : Str)
    (hm : request.HTTPMethod = MethodPost)
    (hd : Unmarshal request.Body ⟨[], [], []⟩ = .ok msg)
    (hs : (sendEmail T config msg world).1 = some e) :
    handleRequest T config request world =
      ((⟨StatusInternalServerError, "Failed to send email"⟩, none),
        (sendEmail T config msg world).2) := by
  unfold handleRequest
  rw [if_neg (not_not.mpr hm), hd]
  cases hse : sendEmail T config msg world with
  | mk err world2 =>
    rw [hse] at hs
    simp only at hs
    subst hs
    dsimp only
    rw [hse]

theorem handleRequest_success (T : Transport) (config : Config)
    (request : APIGatewayProxyRequest) (world : World) (msg : Message)
    (hm : request.HTTPMethod = MethodPost)
    (hd : Unmarshal request.Body ⟨[], [], []⟩ = .ok msg)
    (hs : (sendEmail T config msg world).1 = none) :
    handleRequest T config request world =
      ((⟨StatusOK, Marshal response⟩, none), (sendEmail T config msg world).2) := by
  unfold handleRequest
  rw [if_neg (not_not.mpr hm), hd]
  cases hse : sendEmail T config msg world with
  | mk err world2 =>
    rw [hse] at hs
    simp only at hs
    subst hs
    dsimp only
    rw [hse]

theorem Marshal_response : Marshal response = sortedSuccessBody := by
  decide

theorem sendEmail_calls (T : Transport) (config : Config) (msg : Message) (world : World) :
    (sendEmail T config msg world).2.sendEmailCalls = world.sendEmailCalls ++ [msg] := by
  obtain ⟨call, hcall, _⟩ := sendEmail_eq T config msg world
  rw [hcall]

theorem Unmarshal_ok_Decode {data : Str} {v m : Message} (h : Unmarshal data v = .ok m) :
    Decode data v = .ok m := by
  unfold Unmarshal at h
  unfold Decode
  cases hsc : scanValue (data.length + 1) 0 data with
  | none => rw [hsc] at h; cases h
  | some p =>
    obtain ⟨j, rest⟩ := p
    rw [hsc] at h
    simp only at h ⊢
    split_ifs at h with hr
    exact h

theorem Unmarshal_of_not_Valid {data : Str} (v : Message) (h : Valid data = false) :
    ∃ e, Unmarshal data v = .error e := by
  unfold Valid at h
  unfold Unmarshal
  cases hsc : scanValue (data.length + 1) 0 data with
  | none => exact ⟨_, rfl⟩
  | some p =>
    obtain ⟨j, rest⟩ := p
    rw [hsc] at h
    simp only [decide_eq_false_iff_not] at h
    simp only [if_neg h]
    exact ⟨_, rfl⟩

theorem success_statusCode (w : ResponseWriter) (data : Str) (hw : w.wroteHeader = false) :
    (ResponseWriter.Write
      { w.WriteHeader StatusOK with
        header := (w.WriteHeader StatusOK).header.Set "Content-Type" "application/json" }
      data).statusCode = 200 := by
  simp [ResponseWriter.Write, ResponseWriter.WriteHeader, ResponseWriter.statusCode, hw, StatusOK]

theorem success_body (w : ResponseWriter) (data : Str) :
    (ResponseWriter.Write
      { w.WriteHeader StatusOK with
        header := (w.WriteHeader StatusOK).header.Set "Content-Type" "application/json" }
      data).body = w.body ++ data := by
  unfold ResponseWriter.Write ResponseWriter.WriteHeader
  cases h : w.wroteHeader <;> simp [h]

theorem find_filter_ne (l : List (Str × Str)) (key k : Str) (hk : k ≠ key) :
    (l.filter (fun kv => kv.1 ≠ key)).find? (fun kv => kv.1 = k) =
      l.find? (fun kv => kv.1 = k) := by
  induction l with
  | nil => rfl
  | cons x xs ih =>
    by_cases hx : x.1 = key
    · have hxk : ¬ x.1 = k := fun h => hk (h ▸ hx)
      rw [List.filter_cons_of_neg (by simpa using hx),
        List.find?_cons_of_neg _ (by simpa using hxk), ih]
    · rw [List.filter_cons_of_pos (by simpa using hx)]
      by_cases hxk : x.1 = k
      · rw [List.find?_cons_of_pos _ (by simpa using hxk),
          List.find?_cons_of_pos _ (by simpa using hxk)]
      · rw [List.find?_cons_of_neg _ (by simpa using hxk),
          List.find?_cons_of_neg _ (by simpa using hxk), ih]

theorem find_filter_self (l : List (Str × Str)) (key : Str) :
    (l.filter (fun kv => kv.1 ≠ key)).find? (fun kv => kv.1 = key) = none := by
  induction l with
  | nil => rfl
  | cons x xs ih =>
    by_cases hx : x.1 = key
    · rw [List.filter_cons_of_neg (by simpa using hx), ih]
    · rw [List.filter_cons_of_pos (by simpa using hx),
        List.find?_cons_of_neg _ (by simpa using hx), ih]

theorem Get_Set_self (h : Header) (key v : Str) : (h.Set key v).Get key = some v := by
  simp [Header.Get, Header.Set, Header.Del, List.find?_append, find_filter_self]

theorem Get_Set_ne (h : Header) (key v k : Str) (hk : k ≠ key) :
    (h.Set key v).Get k = h.Get k := by
  have hkey : ¬ key = k := fun e => hk e.symm
  simp only [Header.Get, Header.Set, Header.Del, List.find?_append, find_filter_ne _ _ _ hk]
  rw [List.find?_cons_of_neg _ (by simpa using hkey)]
  simp

theorem sendEmail_const (e : Option Str) (config : Config) (msg : Message) (world : World) :
    (sendEmail (fun _ => e) config msg world).1 = e := by
  obtain ⟨call, hcall, _⟩ := sendEmail_eq (fun _ => e) config msg world
  rw [hcall]

theorem Decode_sampleBody : Decode sampleBody ⟨[], [], []⟩ = .ok sampleMessage := by
  rfl

theorem Unmarshal_sampleBody : Unmarshal sampleBody ⟨[], [], []⟩ = .ok sampleMessage := by
  rfl

theorem Decode_bodyWithTrailer : Decode bodyWithTrailer ⟨[], [], []⟩ = .ok sampleMessage := by
  rfl

theorem Unmarshal_bodyWithTrailer :
    Unmarshal bodyWithTrailer ⟨[], [], []⟩
      = .error "json: invalid character after top-level value" := by
  rfl

theorem Unmarshal_bodyWithoutMessage :
    Unmarshal bodyWithoutMessage ⟨[], [], []⟩ = .ok ⟨"Ann", "ann@example.org", []⟩ := by
  rfl

theorem Decode_bodyWithoutMessage :
    Decode bodyWithoutMessage ⟨[], [], []⟩ = .ok ⟨"Ann", "ann@example.org", []⟩ := by
  rfl

theorem Decode_not_json :
    Decode ("not json" : Str) ⟨[], [], []⟩ = .error "json: no complete value in the stream" := by
  rfl

theorem Unmarshal_not_json :
    Unmarshal ("not json" : Str) ⟨[], [], []⟩ = .error "json: syntax error" := by
  rfl

theorem member_strings_no_error (ms : List (Str × JSON))
    (hms : ∀ m ∈ ms, ∃ s, m.2 = JSON.string s) :
    ∀ d : decodeState, d.savedError = none →
      (ms.foldl decodeState.member d).savedError = none := by
  induction ms with
  | nil => intro d hd; exact hd
  | cons m ms ih =>
    intro d hd
    rw [List.foldl_cons]
    apply ih (fun x hx => hms x (List.mem_cons_of_mem _ hx))
    obtain ⟨s, hs⟩ := hms m (List.mem_cons_self _ _)
    unfold decodeState.member
    cases findField m.1 with
    | none => exact hd
    | some set => rw [hs]; exact hd

theorem member_keeps_Message (d : decodeState) (m : Str × JSON)
    (hs : ∃ s, m.2 = JSON.string s) (hk : foldName m.1 ≠ foldName ("message" : Str)) :
    (d.member m).msg.Message = d.msg.Message := by
  obtain ⟨s, hs⟩ := hs
  have hm : decide (("message" : Str) = m.1) = false :=
    decide_eq_false (fun h => hk (by rw [← h]))
  have hf : decide (foldName ("message" : Str) = foldName m.1) = false :=
    decide_eq_false (fun h => hk h.symm)
  unfold decodeState.member findField messageFields
  rw [hs]
  simp only [List.find?_cons, List.find?_nil, hm, hf]
  cases decide (("name" : Str) = m.1) <;> cases decide (("email" : Str) = m.1) <;>
    cases decide (foldName ("name" : Str) = foldName m.1) <;>
    cases decide (foldName ("email" : Str) = foldName m.1) <;> rfl

theorem member_keeps_Email (d : decodeState) (m : Str × JSON)
    (hs : ∃ s, m.2 = JSON.string s) (hk : foldName m.1 ≠ foldName ("email" : Str)) :
    (d.member m).msg.Email = d.msg.Email := by
  obtain ⟨s, hs⟩ := hs
  have hm : decide (("email" : Str) = m.1) = false :=
    decide_eq_false (fun h => hk (by rw [← h]))
  have hf : decide (foldName ("email" : Str) = foldName m.1) = false :=
    decide_eq_false (fun h => hk h.symm)
  unfold decodeState.member findField messageFields
  rw [hs]
  simp only [List.find?_cons, List.find?_nil, hm, hf]
  cases decide (("name" : Str) = m.1) <;> cases decide (("message" : Str) = m.1) <;>
    cases decide (foldName ("name" : Str) = foldName m.1) <;>
    cases decide (foldName ("message" : Str) = foldName m.1) <;> rfl

theorem member_keeps_Name (d : decodeState) (m : Str × JSON)
    (hs : ∃ s, m.2 = JSON.string s) (hk : foldName m.1 ≠ foldName ("name" : Str)) :
    (d.member m).msg.Name = d.msg.Name := by
  obtain ⟨s, hs⟩ := hs
  have hm : decide (("name" : Str) = m.1) = false :=
    decide_eq_false (fun h => hk (by rw [← h]))
  have hf : decide (foldName ("name" : Str) = foldName m.1) = false :=
    decide_eq_false (fun h => hk h.symm)
  unfold decodeState.member findField messageFields
  rw [hs]
  simp only [List.find?_cons, List.find?_nil, hm, hf]
  cases decide (("email" : Str) = m.1) <;> cases decide (("message" : Str) = m.1) <;>
    cases decide (foldName ("email" : Str) = foldName m.1) <;>
    cases decide (foldName ("message" : Str) = foldName m.1) <;> rfl

/-- A field that no key of the object names keeps its value -/
theorem members_keep (ms : List (Str × JSON)) (hms : ∀ m ∈ ms, ∃ s, m.2 = JSON.string s) :
    ∀ d : decodeState,
      ((∀ m ∈ ms, foldName m.1 ≠ foldName ("name" : Str)) →
        (ms.foldl decodeState.member d).msg.Name = d.msg.Name) ∧
      ((∀ m ∈ ms, foldName m.1 ≠ foldName ("email" : Str)) →
        (ms.foldl decodeState.member d).msg.Email = d.msg.Email) ∧
      ((∀ m ∈ ms, foldName m.1 ≠ foldName ("message" : Str)) →
        (ms.foldl decodeState.member d).msg.Message = d.msg.Message) := by
  induction ms with
  | nil => intro d; exact ⟨fun _ => rfl, fun _ => rfl, fun _ => rfl⟩
  | cons m ms ih =>
    intro d
    rw [List.foldl_cons]
    have hm := hms m (List.mem_cons_self _ _)
    have h2 := ih (fun x hx => hms x (List.mem_cons_of_mem _ hx)) (d.member m)
    refine ⟨fun hk => ?_, fun hk => ?_, fun hk => ?_⟩
    · exact (h2.1 (fun x hx => hk x (List.mem_cons_of_mem _ hx))).trans
        (member_keeps_Name d m hm (hk m (List.mem_cons_self _ _)))
    · exact (h2.2.1 (fun x hx => hk x (List.mem_cons_of_mem _ hx))).trans
        (member_keeps_Email d m hm (hk m (List.mem_cons_self _ _)))
    · exact (h2.2.2 (fun x hx => hk x (List.mem_cons_of_mem _ hx))).trans
        (member_keeps_Message d m hm (hk m (List.mem_cons_self _ _)))

/-! ## The email composer -/

/-- C1: the body `sendEmail` renders is the text of the fixed template with the
three actions replaced by the escaped `Name`, `Email` and `Message`, and it is
the tail of the message handed to the relay.  The escaper turns `<`, `&` and
`"` into `&lt;`, `&amp;` and `&#34;`; an escaped field holds no `<` and no
`"`, and every `&` in it starts a character reference -/
theorem sendEmail_body_escaped (T : Transport) (config : Config) (msg : Message)
    (world : World) :
    emailTemplate = templateHead ++ ("\x7b\x7b.Name\x7d\x7d" : Str) ++ templateAfterName
      ++ ("\x7b\x7b.Email\x7d\x7d" : Str) ++ templateAfterEmail
      ++ ("\x7b\x7b.Message\x7d\x7d" : Str) ++ templateTail ∧
    (∃ (t : List Node) (call : SendMailCall),
      Parse emailTemplate = .ok t ∧
      Execute t msg = .ok (templateHead ++ htmlEscaper msg.Name ++ templateAfterName
        ++ htmlEscaper msg.Email ++ templateAfterEmail
        ++ htmlEscaper msg.Message ++ templateTail) ∧
      (sendEmail T config msg world).2.sent = world.sent ++ [call] ∧
      (templateHead ++ htmlEscaper msg.Name ++ templateAfterName
        ++ htmlEscaper msg.Email ++ templateAfterEmail
        ++ htmlEscaper msg.Message ++ templateTail) <:+ call.msg) ∧
    (∀ a b : Str, htmlEscaper (a ++ '<' :: b) = htmlEscaper a ++ ("&lt;" : Str) ++ htmlEscaper b) ∧
    (∀ a b : Str, htmlEscaper (a ++ '&' :: b) = htmlEscaper a ++ ("&amp;" : Str) ++ htmlEscaper b) ∧
    (∀ a b : Str, htmlEscaper (a ++ '"' :: b) = htmlEscaper a ++ ("&#34;" : Str) ++ htmlEscaper b) ∧
    (∀ f : Str, '<' ∉ htmlEscaper f ∧ '"' ∉ htmlEscaper f) ∧
    (∀ f pre post : Str, htmlEscaper f = pre ++ '&' :: post →
      ∃ e ∈ entityTails, e <+: post) := by
  refine ⟨emailTemplate_eq, ?_, ?_, ?_, ?_, htmlReplacer_no_raw, htmlReplacer_ampersand⟩
  · obtain ⟨call, hcall, _, _, _, _, hmsg⟩ := sendEmail_eq T config msg world
    refine ⟨_, call, Parse_emailTemplate, ?_, ?_, ?_⟩
    · rw [Execute_emailTemplate]; simp only [List.append_nil, List.append_assoc]
    · rw [hcall]
    · rw [hmsg]; exact List.suffix_append _ _
  · intro a b
    simp only [htmlEscaper, htmlReplacer_append, List.append_assoc]
    rfl
  · intro a b
    simp only [htmlEscaper, htmlReplacer_append, List.append_assoc]
    rfl
  · intro a b
    simp only [htmlEscaper, htmlReplacer_append, List.append_assoc]
    rfl

/-- Witness of C1: in the escaped form of `a&b` the `&` starts `&amp;` -/
theorem sendEmail_body_escaped_witness :
    htmlEscaper ("a&b" : Str) = ("a" : Str) ++ '&' :: ("amp;b" : Str) ∧
      ∃ e ∈ entityTails, e <+: ("amp;b" : Str) :=
  ⟨by decide,
   (sendEmail_body_escaped (fun _ => none) ⟨[], [], [], []⟩ ⟨[], [], []⟩ ⟨[], []⟩).2.2.2.2.2.2
     ("a&b" : Str) ("a" : Str) ("amp;b" : Str) (by decide)⟩

/-- C2: the recipients handed to the relay are the comma-split admin
addresses followed by the comma-split CC addresses.  The split is the one
into the segments between the commas: a string without a comma is its own
single segment, the first segment ends at the first comma and the split goes
on behind it; so no recipient holds a comma, each string has one segment
more than commas, and joined by commas again the recipients spell
`AdminEmail`, a comma and `CCEmails`: nothing is reordered, trimmed, recased
or dropped -/
theorem sendEmail_recipients (T : Transport) (config : Config) (msg : Message)
    (world : World) :
    ∃ call : SendMailCall,
      sendEmail T config msg world =
        (T call, ⟨world.sendEmailCalls ++ [msg], world.sent ++ [call]⟩) ∧
      call.toAddrs = Split config.AdminEmail ',' ++ Split config.CCEmails ',' ∧
      (∀ a : Str, ',' ∉ a → Split a ',' = [a]) ∧
      (∀ a b : Str, ',' ∉ a → Split (a ++ ',' :: b) ',' = a :: Split b ',') ∧
      (∀ a ∈ call.toAddrs, ',' ∉ a) ∧
      (Split config.AdminEmail ',').length = config.AdminEmail.count ',' + 1 ∧
      (Split config.CCEmails ',').length = config.CCEmails.count ',' + 1 ∧
      Join (Split config.AdminEmail ',') (",": Str) = config.AdminEmail ∧
      Join (Split config.CCEmails ',') (",": Str) = config.CCEmails ∧
      Join call.toAddrs (",": Str) = config.AdminEmail ++ (",": Str) ++ config.CCEmails := by
  obtain ⟨call, hcall, _, _, _, hto, _⟩ := sendEmail_eq T config msg world
  refine ⟨call, hcall, hto, fun a h => Split_of_not_mem h, fun a b h => Split_append b h, ?_,
    ?_, ?_, Join_Split _ _, Join_Split _ _, ?_⟩
  · intro a ha
    rw [hto, List.mem_append] at ha
    rcases ha with ha | ha
    · exact Split_no_sep _ _ a ha
    · exact Split_no_sep _ _ a ha
  · rw [Split_length, Count_eq_count]
  · rw [Split_length, Count_eq_count]
  · rw [hto, Join_append (Split_ne_nil _ _) (Split_ne_nil _ _)]
    show Join (Split config.AdminEmail ',') [','] ++ [','] ++
        Join (Split config.CCEmails ',') [','] = config.AdminEmail ++ [','] ++ config.CCEmails
    rw [Join_Split, Join_Split]

/-- Witness of C2: two admin addresses, the second with a space in front and
a capital letter, and a CC address that repeats the first -/
theorem sendEmail_recipients_witness :
    ∃ call : SendMailCall,
      sendEmail (fun _ => none) ⟨"u", "p", "a@x.org, B@x.org", "a@x.org"⟩ ⟨"n", "e", "m"⟩
          ⟨[], []⟩
        = (none, ⟨[⟨"n", "e", "m"⟩], [call]⟩) ∧
      call.toAddrs = [("a@x.org" : Str), (" B@x.org" : Str), ("a@x.org" : Str)] ∧
      Split ("a@x.org" : Str) ',' = [("a@x.org" : Str)] ∧
      Split (("a@x.org" : Str) ++ ',' :: (" B@x.org" : Str)) ','
        = ("a@x.org" : Str) :: Split (" B@x.org" : Str) ',' := by
  obtain ⟨call, h1, h2, h3, h4, _⟩ :=
    sendEmail_recipients (fun _ => none) ⟨"u", "p", "a@x.org, B@x.org", "a@x.org"⟩
      ⟨"n", "e", "m"⟩ ⟨[], []⟩
  exact ⟨call, h1, h2.trans (by decide), h3 _ (by decide), h4 _ _ (by decide)⟩

/-- C3: the message handed to the relay is the five header lines From, To,
Cc, Subject and Content-Type in this order, joined by CRLF, then an empty
line, then the rendered body; the header block is fixed by the configuration
alone -/
theorem sendEmail_message (T : Transport) (config : Config) (world : World) :
    ∃ headerBlock : Str,
      headerBlock = ("From: " : Str) ++ config.SMTPUser ++ ("\r\n" : Str)
        ++ ("To: " : Str) ++ config.AdminEmail ++ ("\r\n" : Str)
        ++ ("Cc: " : Str) ++ config.CCEmails ++ ("\r\n" : Str)
        ++ ("Subject: Contact Form Submission" : Str) ++ ("\r\n" : Str)
        ++ ("Content-Type: text/html; charset=\"utf-8\"" : Str) ++ ("\r\n\r\n" : Str) ∧
      ∀ msg : Message, ∃ (t : List Node) (body : Str) (call : SendMailCall),
        Parse emailTemplate = .ok t ∧ Execute t msg = .ok body ∧
        sendEmail T config msg world =
          (T call, ⟨world.sendEmailCalls ++ [msg], world.sent ++ [call]⟩) ∧
        call.msg = headerBlock ++ body := by
  refine ⟨_, rfl, ?_⟩
  intro msg
  obtain ⟨call, hcall, _, _, _, _, hmsg⟩ := sendEmail_eq T config msg world
  refine ⟨_, _, call, Parse_emailTemplate, Execute_emailTemplate msg, hcall, ?_⟩
  rw [hmsg]
  simp only [Join, List.foldl_cons, List.foldl_nil, List.append_nil, List.append_assoc]
  rfl

/-- C10: the recipient list keeps every segment between commas, empty ones
too: a string without a comma, the empty string among them, is one segment,
and the text in front of a comma, empty or not, is a segment of its own.  So
the list has one entry more than there are commas in each of the two
configured strings, no entry holds a comma, joined by commas the entries give
back the two strings, the list is never empty, and an unset `CC_EMAILS` or
`ADMIN_EMAIL` puts the empty address into it -/
theorem sendEmail_recipients_count (T : Transport) (config : Config) (msg : Message)
    (world : World) :
    ∃ call : SendMailCall,
      sendEmail T config msg world =
        (T call, ⟨world.sendEmailCalls ++ [msg], world.sent ++ [call]⟩) ∧
      call.toAddrs = Split config.AdminEmail ',' ++ Split config.CCEmails ',' ∧
      Split [] ',' = [[]] ∧
      (∀ a : Str, ',' ∉ a → Split a ',' = [a]) ∧
      (∀ b : Str, Split (',' :: b) ',' = [] :: Split b ',') ∧
      (∀ a b : Str, ',' ∉ a → Split (a ++ ',' :: b) ',' = a :: Split b ',') ∧
      (∀ a ∈ call.toAddrs, ',' ∉ a) ∧
      Join call.toAddrs (",": Str) = config.AdminEmail ++ (",": Str) ++ config.CCEmails ∧
      call.toAddrs.length = config.AdminEmail.count ',' + config.CCEmails.count ',' + 2 ∧
      call.toAddrs ≠ [] ∧
      (config.CCEmails = [] → [] ∈ call.toAddrs) ∧
      (config.AdminEmail = [] → [] ∈ call.toAddrs) ∧
      (∀ env : List (Str × Str), config = initConfig env →
        ((∀ kv ∈ env, kv.1 ≠ ("CC_EMAILS" : Str)) ∨ (∀ kv ∈ env, kv.1 ≠ ("ADMIN_EMAIL" : Str))) →
        [] ∈ call.toAddrs) := by
  obtain ⟨call, hcall, _, _, _, hto, _⟩ := sendEmail_eq T config msg world
  have hcc : config.CCEmails = [] → [] ∈ call.toAddrs := by
    intro h
    rw [hto, h]
    exact List.mem_append_right _ (by decide)
  have hadmin : config.AdminEmail = [] → [] ∈ call.toAddrs := by
    intro h
    rw [hto, h]
    exact List.mem_append_left _ (by decide)
  have hunset : ∀ (env : List (Str × Str)) (key : Str),
      (∀ kv ∈ env, kv.1 ≠ key) → Getenv env key = [] := by
    intro env key h
    unfold Getenv
    rw [List.find?_eq_none.mpr ?_]
    intro kv hkv
    simpa using h kv hkv
  refine ⟨call, hcall, hto, rfl, fun a h => Split_of_not_mem h,
    fun b => Split_append (a := []) b (List.not_mem_nil _), fun a b h => Split_append b h,
    ?_, ?_, ?_, ?_, hcc, hadmin, ?_⟩
  · intro a ha
    rw [hto, List.mem_append] at ha
    rcases ha with ha | ha
    · exact Split_no_sep _ _ a ha
    · exact Split_no_sep _ _ a ha
  · rw [hto, Join_append (Split_ne_nil _ _) (Split_ne_nil _ _)]
    show Join (Split config.AdminEmail ',') [','] ++ [','] ++
        Join (Split config.CCEmails ',') [','] = config.AdminEmail ++ [','] ++ config.CCEmails
    rw [Join_Split, Join_Split]
  · rw [hto, List.length_append, Split_length, Split_length, Count_eq_count, Count_eq_count]
    omega
  · rw [hto]; simp [Split_ne_nil]
  · intro env henv h
    rcases h with h | h
    · exact hcc (by rw [henv]; exact hunset env _ h)
    · exact hadmin (by rw [henv]; exact hunset env _ h)

/-- Witness of C10: with `ADMIN_EMAIL` set to two addresses and an empty
segment between them, and `CC_EMAILS` unset, the recipients are the two
addresses, the empty segment and the empty CC address -/
theorem sendEmail_recipients_count_witness :
    ∃ call : SendMailCall,
      sendEmail (fun _ => none) (initConfig [("ADMIN_EMAIL", "a@x.org,,b@x.org")])
          ⟨"n", "e", "m"⟩ ⟨[], []⟩
        = (none, ⟨[⟨"n", "e", "m"⟩], [call]⟩) ∧
      call.toAddrs = [("a@x.org" : Str), [], ("b@x.org" : Str), []] ∧
      Split (("a@x.org" : Str) ++ ',' :: (",b@x.org" : Str)) ','
        = ("a@x.org" : Str) :: Split (",b@x.org" : Str) ',' ∧
      call.toAddrs.length = 4 ∧ [] ∈ call.toAddrs := by
  obtain ⟨call, h1, h2, _, _, _, h3, _, _, h4, _, _, _, h5⟩ :=
    sendEmail_recipients_count (fun _ => none)
      (initConfig [("ADMIN_EMAIL", "a@x.org,,b@x.org")]) ⟨"n", "e", "m"⟩ ⟨[], []⟩
  exact ⟨call, h1, h2.trans (by decide), h3 _ _ (by decide), h4,
    h5 _ rfl (Or.inl (by decide))⟩

/-! ## The request adapters -/

/-- C6: a request whose method is not POST gets status 405 from both
handlers, whatever its body, and the world is left as it was: `sendEmail` is
not entered and no mail is sent -/
theorem non_post_rejected (T : Transport) (config : Config) (st : HttpState) (r : Request)
    (request : APIGatewayProxyRequest) (world : World) :
    (r.Method ≠ MethodPost → st.w.wroteHeader = false →
      (handleContactForm T config st r).w.statusCode = 405 ∧
      (handleContactForm T config st r).world = st.world) ∧
    (request.HTTPMethod ≠ MethodPost →
      (handleRequest T config request world).1.1.StatusCode = 405 ∧
      (handleRequest T config request world).2 = world) := by
  constructor
  · intro hm hw
    rw [handleContactForm_not_post T config st r hm]
    exact ⟨Error_statusCode _ _ _ hw, rfl⟩
  · intro hm
    rw [handleRequest_not_post T config request world hm]
    exact ⟨rfl, rfl⟩

/-- Witness of C6: a GET request with a well-formed submission as body -/
theorem non_post_rejected_witness :
    (handleContactForm (fun _ => none) ⟨"u", "p", "a@x.org", "c@x.org"⟩
        ⟨ResponseWriter.fresh, ⟨[], []⟩⟩
        ⟨"GET", "/submit", "\x7b\"name\":\"n\",\"email\":\"e\",\"message\":\"m\"\x7d"⟩).w.statusCode = 405 ∧
    (handleContactForm (fun _ => none) ⟨"u", "p", "a@x.org", "c@x.org"⟩
        ⟨ResponseWriter.fresh, ⟨[], []⟩⟩
        ⟨"GET", "/submit", "\x7b\"name\":\"n\",\"email\":\"e\",\"message\":\"m\"\x7d"⟩).world = ⟨[], []⟩ ∧
    (handleRequest (fun _ => none) ⟨"u", "p", "a@x.org", "c@x.org"⟩
        ⟨"GET", "\x7b\"name\":\"n\",\"email\":\"e\",\"message\":\"m\"\x7d"⟩ ⟨[], []⟩).1.1.StatusCode = 405 ∧
    (handleRequest (fun _ => none) ⟨"u", "p", "a@x.org", "c@x.org"⟩
        ⟨"GET", "\x7b\"name\":\"n\",\"email\":\"e\",\"message\":\"m\"\x7d"⟩ ⟨[], []⟩).2 = ⟨[], []⟩ :=
  have h := non_post_rejected (fun _ => none) ⟨"u", "p", "a@x.org", "c@x.org"⟩
    ⟨ResponseWriter.fresh, ⟨[], []⟩⟩
    ⟨"GET", "/submit", "\x7b\"name\":\"n\",\"email\":\"e\",\"message\":\"m\"\x7d"⟩
    ⟨"GET", "\x7b\"name\":\"n\",\"email\":\"e\",\"message\":\"m\"\x7d"⟩ ⟨[], []⟩
  ⟨(h.1 (by decide) rfl).1, (h.1 (by decide) rfl).2, (h.2 (by decide)).1, (h.2 (by decide)).2⟩

/-- C7: the status of `handleContactForm` on a POST request is 400 when the
body does not decode, else 500 when `sendEmail` returns an error, else 200;
it is 200 exactly when the body decodes and `sendEmail` returns no error -/
theorem handleContactForm_status (T : Transport) (config : Config) (st : HttpState)
    (r : Request) (hm : r.Method = MethodPost) (hw : st.w.wroteHeader = false) :
    (∀ e, Decode r.Body ⟨[], [], []⟩ = .error e →
      (handleContactForm T config st r).w.statusCode = 400) ∧
    (∀ msg e, Decode r.Body ⟨[], [], []⟩ = .ok msg →
      (sendEmail T config msg st.world).1 = some e →
      (handleContactForm T config st r).w.statusCode = 500) ∧
    (∀ msg, Decode r.Body ⟨[], [], []⟩ = .ok msg →
      (sendEmail T config msg st.world).1 = none →
      (handleContactForm T config st r).w.statusCode = 200) ∧
    ((handleContactForm T config st r).w.statusCode = 200 ↔
      ∃ msg, Decode r.Body ⟨[], [], []⟩ = .ok msg ∧
        (sendEmail T config msg st.world).1 = none) := by
  have h400 : ∀ e, Decode r.Body ⟨[], [], []⟩ = .error e →
      (handleContactForm T config st r).w.statusCode = 400 := by
    intro e hd
    rw [handleContactForm_decode_error T config st r e hm hd]
    exact Error_statusCode _ _ _ hw
  have h500 : ∀ msg e, Decode r.Body ⟨[], [], []⟩ = .ok msg →
      (sendEmail T config msg st.world).1 = some e →
      (handleContactForm T config st r).w.statusCode = 500 := by
    intro msg e hd hs
    rw [handleContactForm_send_error T config st r msg e hm hd hs]
    exact Error_statusCode _ _ _ hw
  have h200 : ∀ msg, Decode r.Body ⟨[], [], []⟩ = .ok msg →
      (sendEmail T config msg st.world).1 = none →
      (handleContactForm T config st r).w.statusCode = 200 := by
    intro msg hd hs
    rw [handleContactForm_success T config st r msg hm hd hs]
    exact success_statusCode _ _ hw
  refine ⟨h400, h500, h200, ?_, ?_⟩
  · intro hst
    cases hd : Decode r.Body ⟨[], [], []⟩ with
    | error e => rw [h400 e hd] at hst; exact absurd hst (by decide)
    | ok msg =>
      cases hs : (sendEmail T config msg st.world).1 with
      | some e => rw [h500 msg e hd hs] at hst; exact absurd hst (by decide)
      | none => exact ⟨msg, rfl, hs⟩
  · rintro ⟨msg, hd, hs⟩
    exact h200 msg hd hs

/-- Witness of C7: a body that is not JSON gives 400, a relay that fails
gives 500, a relay that accepts gives 200 -/
theorem handleContactForm_status_witness :
    (handleContactForm (fun _ => none) sampleConfig ⟨ResponseWriter.fresh, ⟨[], []⟩⟩
        ⟨"POST", "/submit", "not json"⟩).w.statusCode = 400 ∧
    (handleContactForm (fun _ => some "smtp: relay rejected") sampleConfig
        ⟨ResponseWriter.fresh, ⟨[], []⟩⟩ ⟨"POST", "/submit", sampleBody⟩).w.statusCode = 500 ∧
    (handleContactForm (fun _ => none) sampleConfig ⟨ResponseWriter.fresh, ⟨[], []⟩⟩
        ⟨"POST", "/submit", sampleBody⟩).w.statusCode = 200 :=
  ⟨(handleContactForm_status (fun _ => none) sampleConfig ⟨ResponseWriter.fresh, ⟨[], []⟩⟩
      ⟨"POST", "/submit", "not json"⟩ rfl rfl).1 _ Decode_not_json,
   (handleContactForm_status (fun _ => some "smtp: relay rejected") sampleConfig
      ⟨ResponseWriter.fresh, ⟨[], []⟩⟩ ⟨"POST", "/submit", sampleBody⟩ rfl rfl).2.1
      sampleMessage "smtp: relay rejected" Decode_sampleBody (sendEmail_const _ _ _ _),
   (handleContactForm_status (fun _ => none) sampleConfig ⟨ResponseWriter.fresh, ⟨[], []⟩⟩
      ⟨"POST", "/submit", sampleBody⟩ rfl rfl).2.2.1
      sampleMessage Decode_sampleBody (sendEmail_const _ _ _ _)⟩

/-- C4 as stated fails: for a POST request whose body decodes and whose mail
the relay accepts, both handlers answer 200, but the body is not the literal
of the specification: the keys come sorted, `message` before `status`, and
`handleContactForm` ends the body with a newline -/
theorem success_body_counterexample :
    Decode sampleBody ⟨[], [], []⟩ = .ok sampleMessage ∧
    Unmarshal sampleBody ⟨[], [], []⟩ = .ok sampleMessage ∧
    (sendEmail (fun _ => none) sampleConfig sampleMessage ⟨[], []⟩).1 = none ∧
    (handleContactForm (fun _ => none) sampleConfig ⟨ResponseWriter.fresh, ⟨[], []⟩⟩
        ⟨"POST", "/submit", sampleBody⟩).w.statusCode = 200 ∧
    (handleContactForm (fun _ => none) sampleConfig ⟨ResponseWriter.fresh, ⟨[], []⟩⟩
        ⟨"POST", "/submit", sampleBody⟩).w.body ≠ specSuccessBody ∧
    (handleRequest (fun _ => none) sampleConfig ⟨"POST", sampleBody⟩ ⟨[], []⟩).1.1.StatusCode
      = 200 ∧
    (handleRequest (fun _ => none) sampleConfig ⟨"POST", sampleBody⟩ ⟨[], []⟩).1.1.Body
      ≠ specSuccessBody := by
  have hs := sendEmail_const none sampleConfig sampleMessage ⟨[], []⟩
  have h1 := handleContactForm_success (fun _ => none) sampleConfig
    ⟨ResponseWriter.fresh, ⟨[], []⟩⟩ ⟨"POST", "/submit", sampleBody⟩ sampleMessage rfl
    Decode_sampleBody hs
  have h2 := handleRequest_success (fun _ => none) sampleConfig ⟨"POST", sampleBody⟩ ⟨[], []⟩
    sampleMessage rfl Unmarshal_sampleBody hs
  refine ⟨Decode_sampleBody, Unmarshal_sampleBody, hs, ?_, ?_, ?_, ?_⟩
  · rw [h1]; exact success_statusCode _ _ rfl
  · rw [h1, success_body, Marshal_response]; decide
  · rw [h2]; rfl
  · rw [h2, Marshal_response]; decide

/-- C4, amended: for a POST request whose body decodes and for which
`sendEmail` returns no error, both handlers answer 200 and the body is the JSON
encoding of the two-entry response map with its keys sorted,
`message` before `status`; `handleContactForm` writes a newline after it -/
theorem success_response (T : Transport) (config : Config) (st : HttpState) (r : Request)
    (request : APIGatewayProxyRequest) (world : World) :
    (∀ msg, r.Method = MethodPost → st.w.wroteHeader = false → st.w.body = [] →
      Decode r.Body ⟨[], [], []⟩ = .ok msg → (sendEmail T config msg st.world).1 = none →
      (handleContactForm T config st r).w.statusCode = 200 ∧
      (handleContactForm T config st r).w.body = sortedSuccessBody ++ ['\n']) ∧
    (∀ msg, request.HTTPMethod = MethodPost →
      Unmarshal request.Body ⟨[], [], []⟩ = .ok msg → (sendEmail T config msg world).1 = none →
      (handleRequest T config request world).1.1.StatusCode = 200 ∧
      (handleRequest T config request world).1.1.Body = sortedSuccessBody) := by
  constructor
  · intro msg hm hw hb hd hs
    rw [handleContactForm_success T config st r msg hm hd hs]
    refine ⟨success_statusCode _ _ hw, ?_⟩
    rw [success_body, hb, Marshal_response]
    rfl
  · intro msg hm hd hs
    rw [handleRequest_success T config request world msg hm hd hs]
    exact ⟨rfl, Marshal_response⟩

/-- Witness of C4, amended: the sample submission with a relay that accepts -/
theorem success_response_witness :
    ((handleContactForm (fun _ => none) sampleConfig ⟨ResponseWriter.fresh, ⟨[], []⟩⟩
        ⟨"POST", "/submit", sampleBody⟩).w.statusCode = 200 ∧
      (handleContactForm (fun _ => none) sampleConfig ⟨ResponseWriter.fresh, ⟨[], []⟩⟩
        ⟨"POST", "/submit", sampleBody⟩).w.body = sortedSuccessBody ++ ['\n']) ∧
    ((handleRequest (fun _ => none) sampleConfig ⟨"POST", sampleBody⟩ ⟨[], []⟩).1.1.StatusCode
        = 200 ∧
      (handleRequest (fun _ => none) sampleConfig ⟨"POST", sampleBody⟩ ⟨[], []⟩).1.1.Body
        = sortedSuccessBody) :=
  have h := success_response (fun _ => none) sampleConfig ⟨ResponseWriter.fresh, ⟨[], []⟩⟩
    ⟨"POST", "/submit", sampleBody⟩ ⟨"POST", sampleBody⟩ ⟨[], []⟩
  ⟨h.1 sampleMessage rfl rfl rfl Decode_sampleBody (sendEmail_const _ _ _ _),
   h.2 sampleMessage rfl Unmarshal_sampleBody (sendEmail_const _ _ _ _)⟩

/-- C5 as stated fails: a POST request whose body is a JSON object without
the field `message` is decoded, the absent field is the empty string,
`sendEmail` is entered with it and the status is 200, not 400, in both
handlers -/
theorem missing_field_counterexample :
    scanValue (bodyWithoutMessage.length + 1) 0 bodyWithoutMessage
      = some (JSON.object [("name", JSON.string "Ann"),
          ("email", JSON.string "ann@example.org")], []) ∧
    (handleContactForm (fun _ => none) sampleConfig ⟨ResponseWriter.fresh, ⟨[], []⟩⟩
        ⟨"POST", "/submit", bodyWithoutMessage⟩).w.statusCode = 200 ∧
    (handleContactForm (fun _ => none) sampleConfig ⟨ResponseWriter.fresh, ⟨[], []⟩⟩
        ⟨"POST", "/submit", bodyWithoutMessage⟩).world.sendEmailCalls
      = [⟨"Ann", "ann@example.org", []⟩] ∧
    (handleRequest (fun _ => none) sampleConfig ⟨"POST", bodyWithoutMessage⟩
        ⟨[], []⟩).1.1.StatusCode = 200 ∧
    (handleRequest (fun _ => none) sampleConfig ⟨"POST", bodyWithoutMessage⟩
        ⟨[], []⟩).2.sendEmailCalls = [⟨"Ann", "ann@example.org", []⟩] := by
  have hs := sendEmail_const none sampleConfig ⟨"Ann", "ann@example.org", []⟩ ⟨[], []⟩
  have h1 := handleContactForm_success (fun _ => none) sampleConfig
    ⟨ResponseWriter.fresh, ⟨[], []⟩⟩ ⟨"POST", "/submit", bodyWithoutMessage⟩ _ rfl
    Decode_bodyWithoutMessage hs
  have h2 := handleRequest_success (fun _ => none) sampleConfig ⟨"POST", bodyWithoutMessage⟩
    ⟨[], []⟩ _ rfl Unmarshal_bodyWithoutMessage hs
  refine ⟨rfl, ?_, ?_, ?_, ?_⟩
  · rw [h1]; exact success_statusCode _ _ rfl
  · rw [h1]
    dsimp only
    rw [sendEmail_calls]
    rfl
  · rw [h2]; rfl
  · rw [h2]
    dsimp only
    rw [sendEmail_calls]
    rfl

/-- C5, amended: a POST request whose body fails to decode gets status 400
from either handler and leaves the world as it was, so `sendEmail` is not
entered; for `handleRequest` every body that is not valid JSON fails to
decode.  An object whose members are all strings never fails to decode,
whichever fields it names: a missing field is no error, and a field that no
key names keeps the value it had, the empty string in the handlers -/
theorem undecodable_body_rejected (T : Transport) (config : Config) (st : HttpState)
    (r : Request) (request : APIGatewayProxyRequest) (world : World) :
    (r.Method = MethodPost → st.w.wroteHeader = false →
      (∃ e, Decode r.Body ⟨[], [], []⟩ = .error e) →
      (handleContactForm T config st r).w.statusCode = 400 ∧
      (handleContactForm T config st r).world = st.world) ∧
    (request.HTTPMethod = MethodPost →
      (∃ e, Unmarshal request.Body ⟨[], [], []⟩ = .error e) →
      (handleRequest T config request world).1.1.StatusCode = 400 ∧
      (handleRequest T config request world).2 = world) ∧
    (request.HTTPMethod = MethodPost → Valid request.Body = false →
      (handleRequest T config request world).1.1.StatusCode = 400 ∧
      (handleRequest T config request world).2 = world) ∧
    (∀ (ms : List (Str × JSON)) (v : Message), (∀ m ∈ ms, ∃ s, m.2 = JSON.string s) →
      ∃ m : Message, unmarshal (JSON.object ms) v = .ok m ∧
        ((∀ kv ∈ ms, foldName kv.1 ≠ foldName ("name" : Str)) → m.Name = v.Name) ∧
        ((∀ kv ∈ ms, foldName kv.1 ≠ foldName ("email" : Str)) → m.Email = v.Email) ∧
        ((∀ kv ∈ ms, foldName kv.1 ≠ foldName ("message" : Str)) → m.Message = v.Message)) := by
  have hreq : request.HTTPMethod = MethodPost →
      (∃ e, Unmarshal request.Body ⟨[], [], []⟩ = .error e) →
      (handleRequest T config request world).1.1.StatusCode = 400 ∧
      (handleRequest T config request world).2 = world := by
    rintro hm ⟨e, hd⟩
    rw [handleRequest_decode_error T config request world e hm hd]
    exact ⟨rfl, rfl⟩
  refine ⟨?_, hreq, fun hm hv => hreq hm (Unmarshal_of_not_Valid _ hv), ?_⟩
  · rintro hm hw ⟨e, hd⟩
    rw [handleContactForm_decode_error T config st r e hm hd]
    exact ⟨Error_statusCode _ _ _ hw, rfl⟩
  · intro ms v hms
    have hno := member_strings_no_error ms hms ⟨v, none⟩ rfl
    simp only [unmarshal]
    cases hf : List.foldl decodeState.member ⟨v, none⟩ ms with
    | mk m err =>
      rw [hf] at hno
      simp only at hno
      subst hno
      have hkeep := members_keep ms hms ⟨v, none⟩
      rw [hf] at hkeep
      exact ⟨m, rfl, hkeep⟩

/-- Witness of C5, amended: the body `not json` is rejected by both
handlers, and the object with the members `name` and `email` decodes -/
theorem undecodable_body_rejected_witness :
    ((handleContactForm (fun _ => none) sampleConfig ⟨ResponseWriter.fresh, ⟨[], []⟩⟩
        ⟨"POST", "/submit", "not json"⟩).w.statusCode = 400 ∧
      (handleContactForm (fun _ => none) sampleConfig ⟨ResponseWriter.fresh, ⟨[], []⟩⟩
        ⟨"POST", "/submit", "not json"⟩).world = ⟨[], []⟩) ∧
    ((handleRequest (fun _ => none) sampleConfig ⟨"POST", "not json"⟩ ⟨[], []⟩).1.1.StatusCode
        = 400 ∧
      (handleRequest (fun _ => none) sampleConfig ⟨"POST", "not json"⟩ ⟨[], []⟩).2
        = ⟨[], []⟩) ∧
    ((handleRequest (fun _ => none) sampleConfig ⟨"POST", bodyWithTrailer⟩
        ⟨[], []⟩).1.1.StatusCode = 400 ∧
      (handleRequest (fun _ => none) sampleConfig ⟨"POST", bodyWithTrailer⟩ ⟨[], []⟩).2
        = ⟨[], []⟩) ∧
    (∃ m : Message,
      unmarshal (JSON.object [("name", JSON.string "Ann"),
        ("email", JSON.string "ann@example.org")]) ⟨[], [], []⟩ = .ok m ∧ m.Message = []) :=
  ⟨(undecodable_body_rejected (fun _ => none) sampleConfig ⟨ResponseWriter.fresh, ⟨[], []⟩⟩
      ⟨"POST", "/submit", "not json"⟩ ⟨"POST", "not json"⟩ ⟨[], []⟩).1 rfl rfl
      ⟨_, Decode_not_json⟩,
   (undecodable_body_rejected (fun _ => none) sampleConfig ⟨ResponseWriter.fresh, ⟨[], []⟩⟩
      ⟨"POST", "/submit", "not json"⟩ ⟨"POST", "not json"⟩ ⟨[], []⟩).2.1 rfl
      ⟨_, Unmarshal_not_json⟩,
   (undecodable_body_rejected (fun _ => none) sampleConfig ⟨ResponseWriter.fresh, ⟨[], []⟩⟩
      ⟨"POST", "/submit", "not json"⟩ ⟨"POST", bodyWithTrailer⟩ ⟨[], []⟩).2.2.1 rfl
      (by decide),
   ((undecodable_body_rejected (fun _ => none) sampleConfig ⟨ResponseWriter.fresh, ⟨[], []⟩⟩
      ⟨"POST", "/submit", "not json"⟩ ⟨"POST", "not json"⟩ ⟨[], []⟩).2.2.2
      [("name", JSON.string "Ann"), ("email", JSON.string "ann@example.org")] ⟨[], [], []⟩
      (by
        intro m hm
        simp only [List.mem_cons, List.mem_singleton, List.not_mem_nil, or_false] at hm
        rcases hm with rfl | rfl
        · exact ⟨_, rfl⟩
        · exact ⟨_, rfl⟩)).imp
      (fun _ h => ⟨h.1, h.2.2.2 (by
        intro kv hkv
        simp only [List.mem_cons, List.mem_singleton, List.not_mem_nil, or_false] at hkv
        rcases hkv with rfl | rfl
        · decide
        · decide)⟩)⟩

/-- C8: on an OPTIONS request the handler built by `withCORS` does not call
the wrapped handler: whatever the path and the body, the result is the same
for every wrapped handler and the world is left as it was; the status is 200
and the three CORS headers are sent.  On any other request the wrapped
handler runs on a response writer that differs from the incoming one only in
its header map, where the three headers are set -/
theorem withCORS_preflight (next : Handler) (st : HttpState) (r : Request) :
    (r.Method = MethodOptions →
      (∀ other : Handler, withCORS other st r = withCORS next st r) ∧
      (withCORS next st r).world = st.world ∧
      (st.w.wroteHeader = false →
        (withCORS next st r).w.statusCode = 200 ∧
        (withCORS next st r).w.sentHeader.Get "Access-Control-Allow-Origin" = some ("*" : Str) ∧
        (withCORS next st r).w.sentHeader.Get "Access-Control-Allow-Methods"
          = some ("POST, OPTIONS" : Str) ∧
        (withCORS next st r).w.sentHeader.Get "Access-Control-Allow-Headers"
          = some ("Content-Type" : Str))) ∧
    (r.Method ≠ MethodOptions →
      ∃ w : ResponseWriter,
        withCORS next st r = next { st with w := w } r ∧
        w.header.Get "Access-Control-Allow-Origin" = some ("*" : Str) ∧
        w.header.Get "Access-Control-Allow-Methods" = some ("POST, OPTIONS" : Str) ∧
        w.header.Get "Access-Control-Allow-Headers" = some ("Content-Type" : Str) ∧
        w.wroteHeader = st.w.wroteHeader ∧ w.status = st.w.status ∧
        w.sentHeader = st.w.sentHeader ∧ w.body = st.w.body) := by
  have hget : ∀ h : Header,
      (((h.Set "Access-Control-Allow-Origin" "*").Set "Access-Control-Allow-Methods"
          "POST, OPTIONS").Set "Access-Control-Allow-Headers" "Content-Type").Get
          "Access-Control-Allow-Origin" = some ("*" : Str) ∧
      (((h.Set "Access-Control-Allow-Origin" "*").Set "Access-Control-Allow-Methods"
          "POST, OPTIONS").Set "Access-Control-Allow-Headers" "Content-Type").Get
          "Access-Control-Allow-Methods" = some ("POST, OPTIONS" : Str) ∧
      (((h.Set "Access-Control-Allow-Origin" "*").Set "Access-Control-Allow-Methods"
          "POST, OPTIONS").Set "Access-Control-Allow-Headers" "Content-Type").Get
          "Access-Control-Allow-Headers" = some ("Content-Type" : Str) := by
    intro h
    refine ⟨?_, ?_, ?_⟩
    · rw [Get_Set_ne _ _ _ _ (by decide), Get_Set_ne _ _ _ _ (by decide), Get_Set_self]
    · rw [Get_Set_ne _ _ _ _ (by decide), Get_Set_self]
    · rw [Get_Set_self]
  constructor
  · intro hm
    have hopt : ∀ other : Handler, withCORS other st r =
        ⟨ResponseWriter.WriteHeader
            ⟨((st.w.header.Set "Access-Control-Allow-Origin" "*").Set
                "Access-Control-Allow-Methods" "POST, OPTIONS").Set
                "Access-Control-Allow-Headers" "Content-Type",
              st.w.wroteHeader, st.w.status, st.w.sentHeader, st.w.body⟩ StatusOK,
          st.world⟩ := by
      intro other
      unfold withCORS
      simp only [hm, if_true]
    refine ⟨fun other => by rw [hopt other, hopt next], by rw [hopt next], ?_⟩
    intro hw
    rw [hopt next]
    simp only [ResponseWriter.WriteHeader, ResponseWriter.statusCode, hw, Bool.false_eq_true,
      if_false, if_true, StatusOK, true_and]
    exact hget st.w.header
  · intro hm
    refine ⟨⟨((st.w.header.Set "Access-Control-Allow-Origin" "*").Set
        "Access-Control-Allow-Methods" "POST, OPTIONS").Set
        "Access-Control-Allow-Headers" "Content-Type",
        st.w.wroteHeader, st.w.status, st.w.sentHeader, st.w.body⟩, ?_, (hget _).1, (hget _).2.1,
        (hget _).2.2, rfl, rfl, rfl, rfl⟩
    unfold withCORS
    simp only [hm, if_false]

/-- Witness of C8: a preflight request with a body, and a POST request, in
front of `handleContactForm` -/
theorem withCORS_preflight_witness :
    (withCORS (handleContactForm (fun _ => none) sampleConfig) ⟨ResponseWriter.fresh, ⟨[], []⟩⟩
        ⟨"OPTIONS", "/other", sampleBody⟩).w.statusCode = 200 ∧
    (withCORS (handleContactForm (fun _ => none) sampleConfig) ⟨ResponseWriter.fresh, ⟨[], []⟩⟩
        ⟨"OPTIONS", "/other", sampleBody⟩).world = ⟨[], []⟩ ∧
    (∃ w : ResponseWriter,
      withCORS (handleContactForm (fun _ => none) sampleConfig)
          ⟨ResponseWriter.fresh, ⟨[], []⟩⟩ ⟨"POST", "/submit", sampleBody⟩
        = handleContactForm (fun _ => none) sampleConfig ⟨w, ⟨[], []⟩⟩
            ⟨"POST", "/submit", sampleBody⟩ ∧
      w.header.Get "Access-Control-Allow-Origin" = some ("*" : Str)) :=
  ⟨(((withCORS_preflight (handleContactForm (fun _ => none) sampleConfig)
        ⟨ResponseWriter.fresh, ⟨[], []⟩⟩ ⟨"OPTIONS", "/other", sampleBody⟩).1 rfl).2.2 rfl).1,
   ((withCORS_preflight (handleContactForm (fun _ => none) sampleConfig)
        ⟨ResponseWriter.fresh, ⟨[], []⟩⟩ ⟨"OPTIONS", "/other", sampleBody⟩).1 rfl).2.1,
   ((withCORS_preflight (handleContactForm (fun _ => none) sampleConfig)
        ⟨ResponseWriter.fresh, ⟨[], []⟩⟩ ⟨"POST", "/submit", sampleBody⟩).2 (by decide)).imp
      (fun _ h => ⟨h.1, h.2.1⟩)⟩

/-- C9 fails on the code: on a POST request whose body is a well-formed
submission followed by other text, `handleContactForm` decodes the first JSON
value, enters `sendEmail` and answers 200, while `handleRequest` rejects the
body with 400 and does not enter `sendEmail` -/
theorem handlers_disagree_on_trailing_data :
    Decode bodyWithTrailer ⟨[], [], []⟩ = .ok sampleMessage ∧
    (handleContactForm (fun _ => none) sampleConfig ⟨ResponseWriter.fresh, ⟨[], []⟩⟩
        ⟨"POST", "/submit", bodyWithTrailer⟩).w.statusCode = 200 ∧
    (handleContactForm (fun _ => none) sampleConfig ⟨ResponseWriter.fresh, ⟨[], []⟩⟩
        ⟨"POST", "/submit", bodyWithTrailer⟩).world.sendEmailCalls = [sampleMessage] ∧
    Valid bodyWithTrailer = false ∧
    (handleRequest (fun _ => none) sampleConfig ⟨"POST", bodyWithTrailer⟩
        ⟨[], []⟩).1.1.StatusCode = 400 ∧
    (handleRequest (fun _ => none) sampleConfig ⟨"POST", bodyWithTrailer⟩ ⟨[], []⟩).2
      = ⟨[], []⟩ := by
  have hs := sendEmail_const none sampleConfig sampleMessage ⟨[], []⟩
  have h1 := handleContactForm_success (fun _ => none) sampleConfig
    ⟨ResponseWriter.fresh, ⟨[], []⟩⟩ ⟨"POST", "/submit", bodyWithTrailer⟩ sampleMessage rfl
    Decode_bodyWithTrailer hs
  have h2 := handleRequest_decode_error (fun _ => none) sampleConfig
    ⟨"POST", bodyWithTrailer⟩ ⟨[], []⟩ _ rfl Unmarshal_bodyWithTrailer
  refine ⟨Decode_bodyWithTrailer, ?_, ?_, by decide, ?_, ?_⟩
  · rw [h1]; exact success_statusCode _ _ rfl
  · rw [h1]
    dsimp only
    rw [sendEmail_calls]
    rfl
  · rw [h2]; rfl
  · rw [h2]

/-- Where the two handlers agree: whenever `json.Unmarshal` accepts the body,
the decoder of the HTTP handler yields the same submission, and the two
handlers give the same status and leave the same world -/
theorem handlers_agree_on_valid_body (T : Transport) (config : Config) (st : HttpState)
    (method body : Str) (msg : Message) (hw : st.w.wroteHeader = false)
    (hd : Unmarshal body ⟨[], [], []⟩ = .ok msg) :
    (handleContactForm T config st ⟨method, "/submit", body⟩).w.statusCode
      = (handleRequest T config ⟨method, body⟩ st.world).1.1.StatusCode ∧
    (handleContactForm T config st ⟨method, "/submit", body⟩).world
      = (handleRequest T config ⟨method, body⟩ st.world).2 := by
  by_cases hm : method = MethodPost
  · cases hs : (sendEmail T config msg st.world).1 with
    | none =>
      rw [handleContactForm_success T config st _ msg hm (Unmarshal_ok_Decode hd) hs,
        handleRequest_success T config _ st.world msg hm hd hs]
      exact ⟨success_statusCode _ _ hw, rfl⟩
    | some e =>
      rw [handleContactForm_send_error T config st _ msg e hm (Unmarshal_ok_Decode hd) hs,
        handleRequest_send_error T config _ st.world msg e hm hd hs]
      exact ⟨Error_statusCode _ _ _ hw, rfl⟩
  · rw [handleContactForm_not_post T config st _ hm,
      handleRequest_not_post T config _ st.world hm]
    exact ⟨Error_statusCode _ _ _ hw, rfl⟩

end GoX
